import Mathlib

/-!
# ethereum-tx-sender

A shallow embedding of the create API and the subscribe hub
(internal/api/common.go), of the watcher's block cursor
(internal/watcher/watcher.go) and of the two transaction bodies of
TestRetryAndOriginalTxSuccess (concurrent_test.go), with the properties
proved about them.
-/

namespace Launcher

/-! ## Go strings and maps -/

/-- The bytes of a Go string. A Go string is a byte sequence; the text of a
request is UTF-8, so the bytes are the UTF-8 encoding of the characters. -/
def goBytes (s : String) : List Nat :=
  s.data.flatMap (fun c => (String.utf8EncodeChar c).map UInt8.toNat)

/-- The bytes of a list of characters: what goBytes gives for the string
they make. -/
def bytesOf (cs : List Char) : List Nat :=
  cs.flatMap (fun c => (String.utf8EncodeChar c).map UInt8.toNat)

/-- Go len(s) for a string s: its number of bytes. -/
def len (s : String) : Nat := (goBytes s).length

/-- Go s[:n] for a string s. The slice expression panics at run time
(slice bounds out of range) when n exceeds len(s): that is none here. -/
def sliceTo (s : String) (n : Nat) : Option (List Nat) :=
  if n ≤ len s then some ((goBytes s).take n) else none

/-- Go m[k] with the comma-ok form, for a map kept as an association list
with distinct keys. -/
def mapGet {K V : Type} [DecidableEq K] : List (K × V) → K → Option V
  | [], _ => none
  | (k1, v1) :: m, k => if k1 = k then some v1 else mapGet m k

/-- Go m[k] = v: the entry of k is replaced where it stands, a new key is added. -/
def mapSet {K V : Type} [DecidableEq K] : List (K × V) → K → V → List (K × V)
  | [], k, v => [(k, v)]
  | (k1, v1) :: m, k, v => if k1 = k then (k, v) :: m else (k1, v1) :: mapSet m k v

/-- Go delete(m, k): no effect when k is absent. -/
def mapDelete {K V : Type} [DecidableEq K] (m : List (K × V)) (k : K) : List (K × V) :=
  m.filter (fun p => !decide (p.1 = k))

/-! ## shopspring/decimal

The arbitrary-precision decimals createLog parses its amounts with. A
Decimal is the pair of an integer coefficient and a base-10 exponent and
stands for value * 10 ^ exp. -/

/-- Type decimal.Decimal: coefficient and exponent. -/
structure Decimal where
  value : Int
  exp : Int
deriving DecidableEq, Repr

/-- The constant decimal.Zero, which the library builds as New(0, 1). -/
def Decimal.Zero : Decimal := ⟨0, 1⟩

/-- Method rescale: the same number at another exponent; lowering the
exponent multiplies the coefficient, raising it divides, truncating
toward zero (big.Int Quo). -/
def Decimal.rescale (d : Decimal) (exp : Int) : Decimal :=
  if d.exp = exp then d
  else if exp > d.exp then ⟨Int.tdiv d.value (10 ^ (exp - d.exp).toNat), exp⟩
  else ⟨d.value * 10 ^ (d.exp - exp).toNat, exp⟩

/-- Method Round(places): round half away from zero at the given number of
decimal places. The result has exponent -places. -/
def Decimal.Round (d : Decimal) (places : Int) : Decimal :=
  if d.exp = -places then d
  else
    let ret := d.rescale (-places - 1)
    let v := if ret.value < 0 then ret.value - 5 else ret.value + 5
    let q := v / 10
    let m := v % 10
    ⟨if q < 0 ∧ m ≠ 0 then q + 1 else q, ret.exp + 1⟩

/-- Method Cmp restricted to its zero test, as Equal uses it: both numbers
are brought to the smaller exponent and the coefficients compared. -/
def Decimal.Equal (d d2 : Decimal) : Bool :=
  if d.exp = d2.exp then decide (d.value = d2.value)
  else if d.exp < d2.exp then decide (d.value = (d2.rescale d.exp).value)
  else decide ((d.rescale d2.exp).value = d2.value)

/-- The number a Decimal stands for is the integer n. -/
def Decimal.denotes (d : Decimal) (n : Int) : Prop :=
  if 0 ≤ d.exp then n = d.value * 10 ^ d.exp.toNat
  else d.value = n * 10 ^ (-d.exp).toNat

instance (d : Decimal) (n : Int) : Decidable (d.denotes n) := by
  unfold Decimal.denotes; exact inferInstance

/-- The number a Decimal stands for is an integer. -/
def Decimal.isInteger (d : Decimal) : Prop :=
  0 ≤ d.exp ∨ (10 : Int) ^ (-d.exp).toNat ∣ d.value

instance (d : Decimal) : Decidable d.isInteger := by
  unfold Decimal.isInteger; exact inferInstance

/-- The value of a decimal digit character. -/
def digitOf (c : Char) : Option Nat :=
  if '0' ≤ c ∧ c ≤ '9' then some (c.toNat - '0'.toNat) else none

/-- A run of decimal digits read from the left, onto an accumulator. -/
def parseDigits : List Char → Nat → Option Nat
  | [], acc => some acc
  | c :: cs, acc =>
    match digitOf c with
    | none => none
    | some d => parseDigits cs (acc * 10 + d)

/-- A base-10 integer with an optional sign and at least one digit: what
strconv.ParseInt(s, 10, _) and big.Int.SetString(s, 10) accept. -/
def parseSigned (s : List Char) : Option Int :=
  match s with
  | [] => none
  | c :: r =>
    if c = '+' then (if r = [] then none else (parseDigits r 0).map Int.ofNat)
    else if c = '-' then
      (if r = [] then none else (parseDigits r 0).map (fun n => - Int.ofNat n))
    else (parseDigits (c :: r) 0).map Int.ofNat

/-- Function decimal.NewFromString; none is its error return. The text is
split at the first E or e into mantissa and 32-bit exponent, the mantissa may
hold one point, its digits are read as one signed integer and the exponent
is lowered by the number of digits after the point. -/
def NewFromString (value : String) : Option Decimal :=
  let cs := value.data
  let sci := cs.span (fun c => c != 'E' && c != 'e')
  let expo : Option Int :=
    match sci.2 with
    | [] => some 0
    | _ :: e =>
      match parseSigned e with
      | none => none
      | some x => if -(2 : Int) ^ 31 ≤ x ∧ x < 2 ^ 31 then some x else none
  match expo with
  | none => none
  | some exp0 =>
    let mant := sci.1
    if 1 < mant.count '.' then none
    else
      let parts := mant.span (fun c => c != '.')
      let intString := parts.1 ++ parts.2.drop 1
      let exp := exp0 - ((parts.2.drop 1).length : Int)
      match parseSigned intString with
      | none => none
      | some v =>
        if exp < -(2 : Int) ^ 31 ∨ exp > 2 ^ 31 - 1 then none else some ⟨v, exp⟩

/-! ## Data model -/

/-- Type sql.NullString: the column is NULL when Valid is false. -/
structure NullString where
  Str : String
  Valid : Bool
deriving DecidableEq, Repr

/-- Type sql.NullInt64. -/
structure NullInt64 where
  Int64 : Int
  Valid : Bool
deriving DecidableEq, Repr

/-- Type models.LaunchLog, one row of launch_logs: the fields the sources
read and write. Status holds the name of a LaunchLogStatus. -/
structure LaunchLog where
  ID : Nat
  ItemType : String
  ItemID : String
  Status : String
  From : String
  To : String
  Value : Decimal
  GasPrice : Decimal
  GasLimit : Nat
  Nonce : NullInt64
  Hash : NullString
  Data : List Nat
  IsUrgent : Bool
  ErrMsg : String
  GasUsed : Int
  ExecutedAt : Int
  UpdatedAt : Int
deriving DecidableEq, Repr

/-- Type pb.CreateMessage, the request of Create. GasLimit is the number
the request carries, before createLog converts it to uint64. -/
structure CreateMessage where
  From : String
  To : String
  Value : String
  GasPrice : String
  GasLimit : Nat
  Data : List Nat
  ItemType : String
  ItemId : String
  IsUrgent : Bool
deriving DecidableEq, Repr

/-- Modelled from the spec: the generated messages package (pb) is not among
the sources. The table pb.LaunchLogStatus_value, from the name of a status to
its number, in the order the spec lists the statuses; a name that is not in
the table reads as 0, the zero value of a Go map lookup. -/
def LaunchLogStatus_value (name : String) : Nat :=
  if name = "CREATED" then 0
  else if name = "PENDING" then 1
  else if name = "RETRIED" then 2
  else if name = "SUCCESS" then 3
  else if name = "FAILED" then 4
  else 0

/-- Type pb.Log, the payload of a create reply, with the fields the
callback fills. -/
structure Log where
  Hash : String
  ItemId : String
  ItemType : String
  Status : Nat
  GasPrice : Decimal
  GasLimit : Nat
  Error : String
deriving DecidableEq, Repr

/-- Type pb.CreateReply with Status REQUEST_SUCCESSFUL and an empty ErrMsg,
the only reply the callback builds. -/
structure CreateReply where
  Data : Log
deriving DecidableEq, Repr

/-- Type pb.SubscribeReply, one frame of a subscribe stream. -/
structure SubscribeReply where
  Status : Nat
  Hash : String
  ItemId : String
  ItemType : String
  ErrMsg : String
deriving DecidableEq, Repr

/-- The table launch_logs behind models.DB: its rows and the next value of
the id sequence. -/
structure DB where
  rows : List LaunchLog
  nextID : Nat
deriving DecidableEq, Repr

/-- The query Where(item_type = ? and item_id = ?).Count. -/
def DB.Count (db : DB) (itemType itemId : String) : Nat :=
  (db.rows.filter (fun r => decide (r.ItemType = itemType ∧ r.ItemID = itemId))).length

/-- The statement DB.Create(log): the row is stored under the next id. -/
def DB.Create (db : DB) (log : LaunchLog) : DB :=
  ⟨db.rows ++ [{ log with ID := db.nextID }], db.nextID + 1⟩

/-! ## Subscribe hub -/

/-- A handler stored in the hub, a Go interface value told apart by its
dynamic type and its identity: a subscribe stream, the address of a create
callback, or anything else. -/
inductive Handler where
  | subscribeServer (id : Nat)
  | createCallback (id : Nat)
  | other (id : Nat)
deriving DecidableEq, Repr

/-- Type SubscribeHub: data is map[string]map[interface]bool. The mutex is
not modelled; every operation below is one critical section. -/
structure SubscribeHub where
  data : List (String × List (Handler × Bool))
deriving DecidableEq, Repr

/-- Function InitSubscribeHub: the hub with an empty map. -/
def InitSubscribeHub : SubscribeHub := ⟨[]⟩

/-- Method SubscribeHub.Register. -/
def SubscribeHub.Register (sb : SubscribeHub) (key : String) (handler : Handler) :
    SubscribeHub :=
  let data1 := match mapGet sb.data key with
    | none => mapSet sb.data key []
    | some _ => sb.data
  match mapGet data1 key with
  | none => ⟨data1⟩
  | some hs => ⟨mapSet data1 key (mapSet hs handler true)⟩

/-- Method SubscribeHub.Remove. -/
def SubscribeHub.Remove (sb : SubscribeHub) (key : String) (handler : Handler) :
    SubscribeHub :=
  match mapGet sb.data key with
  | none => sb
  | some hs =>
    let hs1 := mapDelete hs handler
    let data1 := mapSet sb.data key hs1
    if hs1.length = 0 then ⟨mapDelete data1 key⟩ else ⟨data1⟩

/-- Function getSubscribeHubKey: fmt.Sprintf("Type:%s-ID:%s", itemType, itemId). -/
def getSubscribeHubKey (itemType itemId : String) : String :=
  "Type:" ++ itemType ++ "-ID:" ++ itemId

/-! ## Publishing to subscribers -/

/-- What SendLogStatusToSubscriber does with one handler of the key. -/
inductive Delivery where
  | send (stream : Nat) (frame : SubscribeReply)
  | call (cb : Nat) (log : LaunchLog) (err : Option String)
  | unknown (handler : Nat)
deriving DecidableEq, Repr

/-- Function SendLogStatusToSubscriber: the handlers registered under the key
of the log are visited (Go leaves the order of a map range open; the order
here is that of the list) and each is served by its dynamic type: a stream is
sent one frame, a create callback is called with the log and the error, any
other value is only logged. -/
def SendLogStatusToSubscriber (hub : SubscribeHub) (log : LaunchLog)
    (err : Option String) : List Delivery :=
  let key := getSubscribeHubKey log.ItemType log.ItemID
  match mapGet hub.data key with
  | none => []
  | some data =>
    data.map (fun p =>
      match p.1 with
      | Handler.subscribeServer id =>
        Delivery.send id
          ⟨LaunchLogStatus_value log.Status, log.Hash.Str, log.ItemID, log.ItemType,
            log.ErrMsg⟩
      | Handler.createCallback id => Delivery.call id log err
      | Handler.other id => Delivery.unknown id)

/-! ## Create API -/

/-- The two channels a call of createLog waits on, each with a buffer of
one: what is queued in resCh and in errCh. -/
structure CreateChans where
  resCh : List CreateReply
  errCh : List String
deriving DecidableEq, Repr

/-- The closure cb of createLog (a CreateCallbackFunc): an error goes to
errCh, otherwise a reply built from the log goes to resCh. A send on a full
buffer blocks the publisher: that is none. The reply keeps the gas price as
a Decimal and the gas limit as a number where the source renders both as
decimal text. -/
def cb (l : LaunchLog) (err : Option String) (ch : CreateChans) : Option CreateChans :=
  match err with
  | some e => if ch.errCh.length < 1 then some { ch with errCh := ch.errCh ++ [e] } else none
  | none =>
    if ch.resCh.length < 1 then
      some { ch with resCh := ch.resCh ++
        [⟨⟨l.Hash.Str, l.ItemID, l.ItemType, LaunchLogStatus_value l.Status, l.GasPrice,
          l.GasLimit, l.ErrMsg⟩⟩] }
    else none

/-- The reply cb builds from a log. -/
def replyOf (l : LaunchLog) : CreateReply :=
  ⟨⟨l.Hash.Str, l.ItemID, l.ItemType, LaunchLogStatus_value l.Status, l.GasPrice,
    l.GasLimit, l.ErrMsg⟩⟩

/-- The errors createLog returns, one per return statement. -/
inductive CreateError where
  | convertValue
  | valueNotInteger
  | convertGasPrice
  | fromFormat
  | toFormat
  | countFailed (e : String)
  | itemExists
  | store (e : String)
deriving DecidableEq, Repr

/-- The errors of the validation kind: value, gas price and address checks. -/
def CreateError.isValidation : CreateError → Bool
  | .convertValue => true
  | .valueNotInteger => true
  | .convertGasPrice => true
  | .fromFormat => true
  | .toFormat => true
  | _ => false

/-- What createLog takes from outside the sources: the answer of
gas.GetCurrentGasPrice, the lower-case mapping of the Unicode tables for the
runes above ASCII, and the error (if any) of the count query and of the
insert. -/
structure Env where
  normalPrice : Decimal
  urgentPrice : Decimal
  lowerTable : Char → Char
  countErr : Option String
  createErr : Option String

/-- The lower-casing of an ASCII character as the Go library does it: a
letter from A to Z is moved by the distance from A to a, any other
character stays. -/
def lowerASCII (c : Char) : Char :=
  if 65 ≤ c.toNat ∧ c.toNat ≤ 90 then Char.ofNat (c.toNat + 32) else c

/-- Function unicode.ToLower: the ASCII runes are lower-cased on the spot,
the others go through the Unicode tables. -/
def unicodeToLower (env : Env) (c : Char) : Char :=
  if c.toNat ≤ 127 then lowerASCII c else env.lowerTable c

/-- Function strings.ToLower: a text of ASCII characters only is returned
as it is when it has no letter from A to Z and with those letters
lower-cased otherwise; any other text is mapped rune by rune through
unicode.ToLower. -/
def ToLower (env : Env) (s : String) : String :=
  if s.data.all (fun c => decide (c.toNat ≤ 127)) then
    if s.data.any (fun c => decide (65 ≤ c.toNat ∧ c.toNat ≤ 90)) then
      ⟨s.data.map lowerASCII⟩
    else s
  else ⟨s.data.map (unicodeToLower env)⟩

/-- The state createLog works on: the table behind models.DB, the hub, the
number of signals queued in NewRequestChannel (capacity 100) and the
identity the next callback closure gets. -/
structure World where
  DB : DB
  subscribeHub : SubscribeHub
  NewRequestChannel : Nat
  nextCallback : Nat
deriving DecidableEq, Repr

/-- How far a call of createLog gets before it returns or blocks. -/
inductive CreateStep where
  | panic
  | error (e : CreateError)
  | blockedOnSend (key : String) (handler : Handler)
  | waiting (key : String) (handler : Handler)
deriving DecidableEq, Repr

/-- The LaunchLog createLog builds from a request (lines 116 to 131). -/
def newLog (env : Env) (msg : CreateMessage) (value gasPrice : Decimal) : LaunchLog :=
  { ID := 0
    Hash := ⟨"", false⟩
    IsUrgent := msg.IsUrgent
    From := ToLower env msg.From
    To := ToLower env msg.To
    Value := value
    GasPrice := gasPrice
    GasLimit := msg.GasLimit % 2 ^ 64
    Nonce := ⟨0, false⟩
    Data := msg.Data
    ItemID := msg.ItemId
    ItemType := msg.ItemType
    Status := "CREATED"
    ErrMsg := ""
    GasUsed := 0
    ExecutedAt := 0
    UpdatedAt := 0 }

/-- Lines 69 to 81 of createLog: the value of the request. -/
def parseValue (msg : CreateMessage) : Except CreateError Decimal :=
  if msg.Value = "" then .ok Decimal.Zero
  else
    match NewFromString msg.Value with
    | none => .error .convertValue
    | some value =>
      if !(value.Equal (value.Round 0)) then .error .valueNotInteger else .ok value

/-- Lines 83 to 97 of createLog: the gas price of the request. -/
def parseGasPrice (env : Env) (msg : CreateMessage) : Except CreateError Decimal :=
  if msg.GasPrice = "" then
    .ok (if msg.IsUrgent then env.urgentPrice else env.normalPrice)
  else
    match NewFromString msg.GasPrice with
    | none => .error .convertGasPrice
    | some gasPrice => .ok gasPrice

/-- Function createLog up to the point where it returns an error, panics,
or blocks: on the send to NewRequestChannel when its buffer is full, else in
the final select. The result is paired with the state it leaves. -/
def createLog (env : Env) (w : World) (msg : CreateMessage) : CreateStep × World :=
  match parseValue msg with
  | .error e => (.error e, w)
  | .ok value =>
  match parseGasPrice env msg with
  | .error e => (.error e, w)
  | .ok gasPrice =>
  match sliceTo msg.From 2 with
  | none => (.panic, w)
  | some fromHead =>
  if fromHead ≠ goBytes "0x" ∨ len msg.From ≠ 42 then (.error .fromFormat, w) else
  match sliceTo msg.To 2 with
  | none => (.panic, w)
  | some toHead =>
  if toHead ≠ goBytes "0x" ∨ len msg.To ≠ 42 then (.error .toFormat, w) else
  match env.countErr with
  | some e => (.error (.countFailed e), w)
  | none =>
  if w.DB.Count msg.ItemType msg.ItemId > 0 then (.error .itemExists, w) else
  match env.createErr with
  | some e => (.error (.store e), w)
  | none =>
  let key := getSubscribeHubKey msg.ItemType msg.ItemId
  let handler := Handler.createCallback w.nextCallback
  let w1 : World :=
    { DB := w.DB.Create (newLog env msg value gasPrice)
      subscribeHub := w.subscribeHub.Register key handler
      NewRequestChannel := w.NewRequestChannel
      nextCallback := w.nextCallback + 1 }
  if w.NewRequestChannel < 100 then
    (.waiting key handler, { w1 with NewRequestChannel := w.NewRequestChannel + 1 })
  else (.blockedOnSend key handler, w1)

/-- The select that ends createLog, with the deferred Remove: every result
the call can return with the channels as they are (Go picks among the
ready cases); no result while both channels are empty. -/
def createLogSelect (w : World) (key : String) (handler : Handler) (ch : CreateChans) :
    List (Except String CreateReply × World) :=
  let w1 := { w with subscribeHub := w.subscribeHub.Remove key handler }
  (ch.errCh.take 1).map (fun e => (Except.error e, w1)) ++
    (ch.resCh.take 1).map (fun r => (Except.ok r, w1))

/-! ## Watcher block cursor -/

/-- Type Watcher: the cached block number; the mutex is not modelled, a call
of saveBlockNumber is one critical section. -/
structure Watcher where
  lastSavedBlockNumber : Int
deriving DecidableEq, Repr

/-- What one call of saveBlockNumber did: the value it passed to the
store's IncreaseBlockNumber, if it called it, and the error it returned. -/
structure SaveResult where
  watcher : Watcher
  written : Option Int
  err : Option String
deriving DecidableEq, Repr

/-- Method Watcher.saveBlockNumber; storeErr is the answer of
models.BlockNumberDao.IncreaseBlockNumber for this call. -/
def Watcher.saveBlockNumber (w : Watcher) (blockNum : Int) (storeErr : Option String) :
    SaveResult :=
  if blockNum ≤ w.lastSavedBlockNumber then ⟨w, none, none⟩
  else
    match storeErr with
    | some e => ⟨w, some blockNum, some e⟩
    | none => ⟨⟨blockNum⟩, some blockNum, none⟩

/-- One call of saveBlockNumber in a run: the watcher before it, its
argument, the answer of the store and the result. -/
structure SaveCall where
  before : Watcher
  blockNum : Int
  storeErr : Option String
  result : SaveResult
deriving DecidableEq, Repr

/-- A sequence of calls of saveBlockNumber on one watcher, each with its
block number and the answer the store gives: the calls in order, every call
starting from the watcher the one before it left. -/
def saveAll : Watcher → List (Int × Option String) → List SaveCall
  | _, [] => []
  | w, (blockNum, storeErr) :: rest =>
    let r := w.saveBlockNumber blockNum storeErr
    ⟨w, blockNum, storeErr, r⟩ :: saveAll r.watcher rest

/-- A call of Register or Remove on the hub. -/
inductive HubOp where
  | register (key : String) (handler : Handler)
  | remove (key : String) (handler : Handler)
deriving DecidableEq, Repr

/-- A sequence of Register and Remove calls, applied in order. -/
def applyOps : SubscribeHub → List HubOp → SubscribeHub
  | sb, [] => sb
  | sb, HubOp.register key handler :: ops => applyOps (sb.Register key handler) ops
  | sb, HubOp.remove key handler :: ops => applyOps (sb.Remove key handler) ops

/-- The checks a request has gone through when createLog reaches its insert. -/
def Checked (env : Env) (w : World) (msg : CreateMessage) (value gasPrice : Decimal) : Prop :=
  parseValue msg = .ok value ∧ parseGasPrice env msg = .ok gasPrice ∧
  sliceTo msg.From 2 = some (goBytes "0x") ∧ len msg.From = 42 ∧
  sliceTo msg.To 2 = some (goBytes "0x") ∧ len msg.To = 42 ∧
  env.countErr = none ∧ w.DB.Count msg.ItemType msg.ItemId = 0 ∧ env.createErr = none

/-- The address pattern of the spec, ^0x[0-9a-fA-F]{40}$: a hexadecimal digit. -/
def isHexDigit (c : Char) : Bool :=
  ('0' ≤ c && c ≤ '9') || ('a' ≤ c && c ≤ 'f') || ('A' ≤ c && c ≤ 'F')

/-- The address pattern of the spec, ^0x[0-9a-fA-F]{40}$, as the spec words
it; createLog does not use it. -/
def matchesAddressPattern (s : String) : Bool :=
  match s.data with
  | c0 :: c1 :: r => c0 = '0' && c1 = 'x' && r.length = 40 && r.all isHexDigit
  | _ => false

/-- No key of the hub maps to an empty handler set. -/
def NoEmptySet (sb : SubscribeHub) : Prop :=
  ∀ key, mapGet sb.data key ≠ some []

/-! ## The retry race of TestRetryAndOriginalTxSuccess -/

/-- The SQL comparison hash != ? against a NullString argument: with NULL on
either side it is not true. -/
def sqlNe (a b : NullString) : Bool := a.Valid && b.Valid && !decide (a.Str = b.Str)

/-- The statement of lines 68 to 76: UPDATE launch_logs SET status = RETRIED
WHERE item_type = ? and item_id = ? and status = PENDING and hash != ?. -/
def retireOthers (rows : List LaunchLog) (itemType itemID : String) (hash : NullString) :
    List LaunchLog :=
  rows.map (fun r =>
    if r.ItemType = itemType ∧ r.ItemID = itemID ∧ r.Status = "PENDING" ∧ sqlNe r.Hash hash = true
    then { r with Status := "RETRIED" } else r)

/-- The statement Model(log).Update("status", status): UPDATE launch_logs SET
status = ? WHERE id = ?. -/
def setStatus (rows : List LaunchLog) (id : Nat) (status : String) : List LaunchLog :=
  rows.map (fun r => if r.ID = id then { r with Status := status } else r)

/-- The statement Model(log).Update("updated_at", now). -/
def setUpdatedAt (rows : List LaunchLog) (id : Nat) (now : Int) : List LaunchLog :=
  rows.map (fun r => if r.ID = id then { r with UpdatedAt := now } else r)

/-- The query Where(id = ?).Scan: the row with the id, if there is one. -/
def findByID (rows : List LaunchLog) (id : Nat) : Option LaunchLog :=
  rows.find? (fun r => decide (r.ID = id))

/-- Modelled from the spec: the schema of launch_logs is not among the
sources. By section 6 the table has a unique index on hash (invariant I3):
a non-NULL hash that a stored row already holds cannot be inserted again. -/
def hashTaken (rows : List LaunchLog) (hash : NullString) : Bool :=
  hash.Valid && rows.any (fun r => r.Hash.Valid && decide (r.Hash.Str = hash.Str))

/-- Modelled from the spec: insertRetryLaunchLog is not among the sources,
only its call in the test is. By section 4.4 (stale PENDING log, steps 3 to
5) and section 3 (lifecycles) a retry, within its transaction, sets to
RETRIED all rows of the intent that are PENDING with a hash other than that
of the superseded row L, inserts a new PENDING row with the fields of L and
the freshly signed hash, and sets L itself to RETRIED. The argument is the
copy of L that carries the new hash; L is the stored row with its id. The
call returns an error when the store fails (storeErr) and when the unique
index on hash refuses the new row. -/
def insertRetryLaunchLog (db : DB) (launchLog : LaunchLog) (storeErr : Option String) :
    Except String DB :=
  match storeErr with
  | some e => .error e
  | none =>
    let rows1 :=
      match findByID db.rows launchLog.ID with
      | none => db.rows
      | some l => retireOthers db.rows l.ItemType l.ItemID l.Hash
    if hashTaken rows1 launchLog.Hash then
      .error "duplicate key value violates unique constraint"
    else
      .ok ⟨setStatus (rows1 ++ [{ launchLog with ID := db.nextID, Status := "PENDING" }])
        launchLog.ID "RETRIED", db.nextID + 1⟩

/-- The two goroutines of the test: the loop that sets the final status and
the loop that retries. -/
inductive Tid where
  | confirm
  | retry
deriving DecidableEq, Repr

/-- Where a goroutine stands in its transaction body: before its SELECT FOR
UPDATE, after it (at the status test), after the test, after its first and
its second write, and returned. -/
inductive Pc where
  | start
  | locked
  | checked
  | wrote1
  | wrote2
  | done
deriving DecidableEq, Repr

/-- A goroutine: its position, the row it read under the lock (reloadedLog),
the number of write statements it has run, the table as its open
transaction sees it, and the error its body returned, if it did. -/
structure Thread where
  pc : Pc
  reloadedLog : Option LaunchLog
  writes : Nat
  tx : Option DB
  err : Option String
deriving DecidableEq, Repr

/-- Modelled from the spec: executeInRepeatableReadTransaction and the store
are not among the sources. By sections 4.1 and 5 the store gives a row-level
pessimistic lock: SELECT FOR UPDATE waits while another transaction holds
the lock of the row, then reads the committed row; the lock is held until the
transaction ends. A body that returns nil is committed, its writes reach the
table then; a body that returns an error is rolled back, its writes are
dropped. The state of the race is the committed table, the holder of the
lock on L and the two goroutines. -/
structure Race where
  db : DB
  lock : Option Tid
  confirm : Thread
  retry : Thread
deriving DecidableEq, Repr

/-- The end of a transaction body that returned nil: commit. -/
def Thread.commit (th : Thread) : Thread := { th with pc := .done, tx := none }

/-- The end of a transaction body that returned an error: rollback. -/
def Thread.abort (th : Thread) (e : String) : Thread :=
  { th with pc := .done, tx := none, err := some e }

/-- One step of the goroutine that sets the final status (lines 49 to 89).
Every statement of the store may fail, storeErr is the error it then gives,
and the body returns it (lines 54 to 57, 76 to 80, 82 to 86). Otherwise: take
the lock and read L, or wait while the other goroutine holds it; return nil
if L is not PENDING; set the other PENDING rows of the intent to RETRIED; set
L to SUCCESS; return nil. A position inside the transaction with no
transaction open does not occur in a run from initRace; it is closed as an
abort. -/
def stepConfirm (originalLog : LaunchLog) (storeErr : Option String) (s : Race) : Race :=
  match s.confirm.pc with
  | .start =>
    match storeErr with
    | some e => { s with confirm := s.confirm.abort e }
    | none =>
      match s.lock with
      | some _ => s
      | none =>
        match findByID s.db.rows originalLog.ID with
        | none => { s with confirm := s.confirm.abort "record not found" }
        | some reloadedLog =>
          { s with
            lock := some .confirm
            confirm :=
              { s.confirm with pc := .locked, reloadedLog := some reloadedLog, tx := some s.db } }
  | .locked =>
    match s.confirm.reloadedLog, s.confirm.tx with
    | some reloadedLog, some tx =>
      if reloadedLog.Status ≠ "PENDING" then
        { s with db := tx, lock := none, confirm := s.confirm.commit }
      else { s with confirm := { s.confirm with pc := .checked } }
    | _, _ => { s with lock := none, confirm := s.confirm.abort "no transaction" }
  | .checked =>
    match storeErr, s.confirm.tx with
    | none, some tx =>
      { s with
        confirm :=
          { s.confirm with
            pc := .wrote1
            writes := s.confirm.writes + 1
            tx := some { tx with
              rows := retireOthers tx.rows originalLog.ItemType originalLog.ItemID
                originalLog.Hash } } }
    | some e, _ => { s with lock := none, confirm := s.confirm.abort e }
    | none, none => { s with lock := none, confirm := s.confirm.abort "no transaction" }
  | .wrote1 =>
    match storeErr, s.confirm.tx with
    | none, some tx =>
      { s with
        confirm :=
          { s.confirm with
            pc := .wrote2
            writes := s.confirm.writes + 1
            tx := some { tx with rows := setStatus tx.rows originalLog.ID "SUCCESS" } } }
    | some e, _ => { s with lock := none, confirm := s.confirm.abort e }
    | none, none => { s with lock := none, confirm := s.confirm.abort "no transaction" }
  | .wrote2 =>
    match s.confirm.tx with
    | some tx => { s with db := tx, lock := none, confirm := s.confirm.commit }
    | none => { s with lock := none, confirm := s.confirm.abort "no transaction" }
  | .done => s

/-- One step of the goroutine that retries (lines 98 to 137). Every statement
of the store may fail, storeErr is the error it then gives, and the body
returns it (lines 104 to 107, 118 to 121, 131 to 134). Otherwise: take the
lock and read L, or wait while the other goroutine holds it; return nil if L
is not PENDING; touch updated_at; insert the retried row, a copy of the log
as loaded before the race with the hash "retried"; return nil. A position
inside the transaction with no transaction open does not occur in a run from
initRace; it is closed as an abort. -/
def stepRetry (originalLog : LaunchLog) (now : Int) (storeErr : Option String) (s : Race) :
    Race :=
  match s.retry.pc with
  | .start =>
    match storeErr with
    | some e => { s with retry := s.retry.abort e }
    | none =>
      match s.lock with
      | some _ => s
      | none =>
        match findByID s.db.rows originalLog.ID with
        | none => { s with retry := s.retry.abort "record not found" }
        | some reloadedLog =>
          { s with
            lock := some .retry
            retry :=
              { s.retry with pc := .locked, reloadedLog := some reloadedLog, tx := some s.db } }
  | .locked =>
    match s.retry.reloadedLog, s.retry.tx with
    | some reloadedLog, some tx =>
      if reloadedLog.Status ≠ "PENDING" then
        { s with db := tx, lock := none, retry := s.retry.commit }
      else { s with retry := { s.retry with pc := .checked } }
    | _, _ => { s with lock := none, retry := s.retry.abort "no transaction" }
  | .checked =>
    match storeErr, s.retry.reloadedLog, s.retry.tx with
    | none, some reloadedLog, some tx =>
      { s with
        retry :=
          { s.retry with
            pc := .wrote1
            writes := s.retry.writes + 1
            tx := some { tx with rows := setUpdatedAt tx.rows reloadedLog.ID now } } }
    | some e, _, _ => { s with lock := none, retry := s.retry.abort e }
    | none, _, _ => { s with lock := none, retry := s.retry.abort "no transaction" }
  | .wrote1 =>
    match s.retry.tx with
    | some tx =>
      match insertRetryLaunchLog tx { originalLog with Hash := ⟨"retried", true⟩ } storeErr with
      | .ok tx1 =>
        { s with
          retry :=
            { s.retry with pc := .wrote2, writes := s.retry.writes + 1, tx := some tx1 } }
      | .error e => { s with lock := none, retry := s.retry.abort e }
    | none => { s with lock := none, retry := s.retry.abort "no transaction" }
  | .wrote2 =>
    match s.retry.tx with
    | some tx => { s with db := tx, lock := none, retry := s.retry.commit }
    | none => { s with lock := none, retry := s.retry.abort "no transaction" }
  | .done => s

/-- One step of the goroutine the scheduler picks, with the answer of the
store to the statement the step runs. -/
def step (originalLog : LaunchLog) (now : Int) (s : Race) (t : Tid × Option String) : Race :=
  match t.1 with
  | .confirm => stepConfirm originalLog t.2 s
  | .retry => stepRetry originalLog now t.2 s

/-- A run of the two goroutines under a schedule. -/
def run (originalLog : LaunchLog) (now : Int) (s : Race) (sched : List (Tid × Option String)) :
    Race :=
  sched.foldl (step originalLog now) s

/-- A schedule in which no statement of the store fails. -/
def quiet (sched : List Tid) : List (Tid × Option String) :=
  sched.map (fun t => (t, none))

/-- The start of the test: the table emptied and L created in it, both
goroutines before their transaction, the lock free. -/
def initRace (L : LaunchLog) : Race :=
  ⟨⟨[L], L.ID + 1⟩, none, ⟨.start, none, 0, none, none⟩, ⟨.start, none, 0, none, none⟩⟩

/-- The first outcome: L is SUCCESS and the table holds no other row. -/
def successOutcome (L : LaunchLog) (rows : List LaunchLog) : Prop :=
  rows = [{ L with Status := "SUCCESS" }]

instance (L : LaunchLog) (rows : List LaunchLog) : Decidable (successOutcome L rows) := by
  unfold successOutcome; exact inferInstance

/-- The second outcome: L is RETRIED, touched at the time of the retry, and
the table holds one more row, the PENDING copy of L with the hash
"retried". -/
def retriedOutcome (L : LaunchLog) (now : Int) (rows : List LaunchLog) : Prop :=
  rows = [{ L with Status := "RETRIED", UpdatedAt := now },
    { L with ID := L.ID + 1, Hash := ⟨"retried", true⟩, Status := "PENDING" }]

instance (L : LaunchLog) (now : Int) (rows : List LaunchLog) :
    Decidable (retriedOutcome L now rows) := by
  unfold retriedOutcome; exact inferInstance

/-- A goroutine is inside its transaction, holding the lock. -/
def Thread.inTx (th : Thread) : Bool :=
  th.pc = .locked || th.pc = .checked || th.pc = .wrote1 || th.pc = .wrote2

/-- The states the race passes through when no statement fails, by name: the
start, then the five positions of the goroutine that locks first with the
other one waiting, then the other one locking and returning. -/
inductive Phase where
  | init
  | cLocked | cChecked | cWrote1 | cWrote2 | cDone | cDoneRLocked | successEnd
  | rLocked | rChecked | rWrote1 | rWrote2 | rDone | rDoneCLocked | retriedEnd
deriving DecidableEq, Repr

/-- The step of the scheduler on the named states. -/
def Phase.next : Phase → Tid → Phase
  | .init, .confirm => .cLocked
  | .init, .retry => .rLocked
  | .cLocked, .confirm => .cChecked
  | .cChecked, .confirm => .cWrote1
  | .cWrote1, .confirm => .cWrote2
  | .cWrote2, .confirm => .cDone
  | .cDone, .retry => .cDoneRLocked
  | .cDoneRLocked, .retry => .successEnd
  | .rLocked, .retry => .rChecked
  | .rChecked, .retry => .rWrote1
  | .rWrote1, .retry => .rWrote2
  | .rWrote2, .retry => .rDone
  | .rDone, .confirm => .rDoneCLocked
  | .rDoneCLocked, .confirm => .retriedEnd
  | p, _ => p

/-- The table with L alone, as the test sets it up. -/
def tableStart (L : LaunchLog) : DB := ⟨[L], L.ID + 1⟩

/-- The table after the confirm transaction. -/
def tableSuccess (L : LaunchLog) : DB := ⟨[{ L with Status := "SUCCESS" }], L.ID + 1⟩

/-- The table after the retry transaction. -/
def tableRetried (L : LaunchLog) (now : Int) : DB :=
  ⟨[{ L with Status := "RETRIED", UpdatedAt := now },
    { L with ID := L.ID + 1, Hash := ⟨"retried", true⟩, Status := "PENDING" }], L.ID + 1 + 1⟩

/-- A goroutine that has not started. -/
def Thread.fresh : Thread := ⟨.start, none, 0, none, none⟩

/-- The state of the race a name stands for, for the log L of the test and
the time of the retry. -/
def Phase.state (L : LaunchLog) (now : Int) : Phase → Race
  | .init => initRace L
  | .cLocked =>
    ⟨tableStart L, some .confirm, ⟨.locked, some L, 0, some (tableStart L), none⟩, Thread.fresh⟩
  | .cChecked =>
    ⟨tableStart L, some .confirm, ⟨.checked, some L, 0, some (tableStart L), none⟩, Thread.fresh⟩
  | .cWrote1 =>
    ⟨tableStart L, some .confirm, ⟨.wrote1, some L, 1, some (tableStart L), none⟩, Thread.fresh⟩
  | .cWrote2 =>
    ⟨tableStart L, some .confirm, ⟨.wrote2, some L, 2, some (tableSuccess L), none⟩,
      Thread.fresh⟩
  | .cDone => ⟨tableSuccess L, none, ⟨.done, some L, 2, none, none⟩, Thread.fresh⟩
  | .cDoneRLocked =>
    ⟨tableSuccess L, some .retry, ⟨.done, some L, 2, none, none⟩,
      ⟨.locked, some { L with Status := "SUCCESS" }, 0, some (tableSuccess L), none⟩⟩
  | .successEnd =>
    ⟨tableSuccess L, none, ⟨.done, some L, 2, none, none⟩,
      ⟨.done, some { L with Status := "SUCCESS" }, 0, none, none⟩⟩
  | .rLocked =>
    ⟨tableStart L, some .retry, Thread.fresh, ⟨.locked, some L, 0, some (tableStart L), none⟩⟩
  | .rChecked =>
    ⟨tableStart L, some .retry, Thread.fresh, ⟨.checked, some L, 0, some (tableStart L), none⟩⟩
  | .rWrote1 =>
    ⟨tableStart L, some .retry, Thread.fresh,
      ⟨.wrote1, some L, 1, some ⟨[{ L with UpdatedAt := now }], L.ID + 1⟩, none⟩⟩
  | .rWrote2 =>
    ⟨tableStart L, some .retry, Thread.fresh,
      ⟨.wrote2, some L, 2, some (tableRetried L now), none⟩⟩
  | .rDone => ⟨tableRetried L now, none, Thread.fresh, ⟨.done, some L, 2, none, none⟩⟩
  | .rDoneCLocked =>
    ⟨tableRetried L now, some .confirm,
      ⟨.locked, some { L with Status := "RETRIED", UpdatedAt := now }, 0,
        some (tableRetried L now), none⟩,
      ⟨.done, some L, 2, none, none⟩⟩
  | .retriedEnd =>
    ⟨tableRetried L now, none,
      ⟨.done, some { L with Status := "RETRIED", UpdatedAt := now }, 0, none, none⟩,
      ⟨.done, some L, 2, none, none⟩⟩

/-- A continuation of a schedule that lets both goroutines finish: five
steps of one, five of the other, five of the first again. -/
def fairTail : List Tid :=
  List.replicate 5 Tid.confirm ++ List.replicate 5 Tid.retry ++ List.replicate 5 Tid.confirm

/-! ## Example inputs -/

/-- An environment in which the store answers without error; the examples
hold ASCII text only, so the table for the other runes is left blank. -/
def exampleEnv : Env := ⟨⟨1, 10⟩, ⟨2, 10⟩, fun c => c, none, none⟩

/-- The state of a fresh process: empty table, empty hub, empty channel. -/
def emptyWorld : World := ⟨⟨[], 1⟩, InitSubscribeHub, 0, 0⟩

/-- A well-formed request for the intent (T, a). -/
def exampleMsg : CreateMessage :=
  ⟨"0xaaaaaaaaaaaaaaaaaaaaaaaaaaaaaaaaaaaaaaaa", "0xbbbbbbbbbbbbbbbbbbbbbbbbbbbbbbbbbbbbbbbb", "0", "10000000000", 100000, [], "T", "a", false⟩

/-- The state after exampleMsg has been accepted: one log for (T, a). -/
def worldWithLog : World := (createLog exampleEnv emptyWorld exampleMsg).2

/-- A request for the intent (T, a) again, with a value that is no number. -/
def badValueMsg : CreateMessage := { exampleMsg with Value := "abc" }

/-- A request whose from address has the length and the 0x of an address
and no hexadecimal digit after it. -/
def nonHexMsg : CreateMessage := { exampleMsg with From := "0xzzzzzzzzzzzzzzzzzzzzzzzzzzzzzzzzzzzzzzzz" }

/-- A request with a negative value. -/
def negativeValueMsg : CreateMessage := { exampleMsg with Value := "-1" }

/-- A request with an empty from address. -/
def emptyFromMsg : CreateMessage := { exampleMsg with From := "" }

/-- A request with a to address of one character. -/
def shortToMsg : CreateMessage := { exampleMsg with To := "0" }

/-- A request with a from address that is too short and keeps its 0x. -/
def shortFromMsg : CreateMessage := { exampleMsg with From := "0x12" }

/-- A request with upper-case digits in its from address. -/
def upperCaseMsg : CreateMessage := { exampleMsg with From := "0xABaaaaaaaaaaaaaaaaaaaaaaaaaaaaaaaaaaaaaa" }

/-- A hub built by three registrations and one removal. -/
def exampleHub : SubscribeHub :=
  applyOps InitSubscribeHub
    [HubOp.register "k1" (Handler.createCallback 1), HubOp.register "k2" (Handler.subscribeServer 2),
      HubOp.register "k1" (Handler.subscribeServer 3), HubOp.remove "k1" (Handler.createCallback 1)]

/-- A log of the intent with item type a-ID:b and item id c. -/
def crossLog : LaunchLog :=
  { ID := 5, ItemType := "a-ID:b", ItemID := "c", Status := "PENDING", From := "", To := "",
    Value := ⟨0, 0⟩, GasPrice := ⟨1, 0⟩, GasLimit := 1, Nonce := ⟨0, true⟩,
    Hash := ⟨"h", true⟩, Data := [], IsUrgent := false, ErrMsg := "", GasUsed := 0,
    ExecutedAt := 0, UpdatedAt := 0 }

/-- A log of the intent (T, a) in status RETRIED. -/
def retriedLog : LaunchLog :=
  { ID := 1, ItemType := "T", ItemID := "a", Status := "RETRIED", From := "", To := "",
    Value := ⟨0, 0⟩, GasPrice := ⟨1, 10⟩, GasLimit := 100000, Nonce := ⟨0, true⟩,
    Hash := ⟨"h", true⟩, Data := [], IsUrgent := false, ErrMsg := "", GasUsed := 0,
    ExecutedAt := 0, UpdatedAt := 0 }

/-- The log the test creates: intent (T, id), PENDING, hash "original". -/
def testLog : LaunchLog :=
  { ID := 1, ItemType := "T", ItemID := "id", Status := "PENDING", From := "0x0", To := "0x1",
    Value := Decimal.Zero, GasPrice := ⟨1, 10⟩, GasLimit := 100000, Nonce := ⟨0, false⟩,
    Hash := ⟨"original", true⟩, Data := [], IsUrgent := false, ErrMsg := "", GasUsed := 0,
    ExecutedAt := 0, UpdatedAt := 0 }

/-- A PENDING log that already holds the hash "retried". -/
def clashLog : LaunchLog := { testLog with Hash := ⟨"retried", true⟩ }

/-! # Theorems -/

/-! ## Decimals: rounding and integrality -/

theorem round_half_exact (y : Int) :
    (if (if 10 * y < 0 then 10 * y - 5 else 10 * y + 5) / 10 < 0 ∧
        (if 10 * y < 0 then 10 * y - 5 else 10 * y + 5) % 10 ≠ 0
      then (if 10 * y < 0 then 10 * y - 5 else 10 * y + 5) / 10 + 1
      else (if 10 * y < 0 then 10 * y - 5 else 10 * y + 5) / 10) = y := by
  by_cases h : 10 * y < 0
  · simp only [h, if_true]
    have h1 : (10 * y - 5) / 10 = y - 1 := by omega
    have h2 : (10 * y - 5) % 10 = 5 := by omega
    rw [h1, h2]
    have : y - 1 < 0 := by omega
    simp [this]
  · simp only [h, if_false]
    have h1 : (10 * y + 5) / 10 = y := by omega
    have h2 : (10 * y + 5) % 10 = 5 := by omega
    rw [h1, h2]
    have : ¬ y < 0 := by omega
    simp [this]

theorem round_zero_pos (v e : Int) (he : 0 < e) :
    (Decimal.mk v e).Round 0 = ⟨v * 10 ^ e.toNat, 0⟩ := by
  have hne : ¬ e = -0 := by omega
  have h1 : ¬ e = -0 - 1 := by omega
  have h2 : ¬ (-0 - 1 : Int) > e := by omega
  have h3 : (e - (-0 - 1)).toNat = e.toNat + 1 := by omega
  have h4 : v * 10 ^ (e.toNat + 1) = 10 * (v * 10 ^ e.toNat) := by ring
  simp only [Decimal.Round, Decimal.rescale, hne, h1, h2, if_false, h3, h4]
  rw [round_half_exact]
  simp

theorem round_zero_neg_exact (n e : Int) (he : e < 0) :
    (Decimal.mk (n * 10 ^ (-e).toNat) e).Round 0 = ⟨n, 0⟩ := by
  have hne : ¬ e = -0 := by omega
  have hret : ((Decimal.mk (n * 10 ^ (-e).toNat) e).rescale (-0 - 1)) = ⟨10 * n, -1⟩ := by
    by_cases h1 : e = -1
    · subst h1
      simp [Decimal.rescale]; ring
    · have h1b : ¬ e = -0 - 1 := by omega
      have h2 : (-0 - 1 : Int) > e := by omega
      have h3 : (-e).toNat = (-0 - 1 - e).toNat + 1 := by omega
      simp only [Decimal.rescale, h1b, h2, if_false, if_true]
      rw [h3]
      have h4 : n * 10 ^ ((-0 - 1 - e).toNat + 1) = (10 * n) * 10 ^ (-0 - 1 - e).toNat := by ring
      rw [h4, Int.mul_tdiv_cancel _ (by positivity)]
      simp
  simp only [Decimal.Round, hne, if_false, hret]
  rw [round_half_exact]
  simp

theorem round_zero_exp (v e : Int) (he : e ≠ 0) : ((Decimal.mk v e).Round 0).exp = 0 := by
  have hne : ¬ e = -0 := by omega
  simp only [Decimal.Round, hne, if_false, Decimal.rescale]
  split_ifs <;> dsimp only <;> omega

theorem equal_round_iff_isInteger (d : Decimal) :
    d.Equal (d.Round 0) = true ↔ d.isInteger := by
  obtain ⟨v, e⟩ := d
  rcases lt_trichotomy e 0 with he | he | he
  · -- negative exponent
    have hk : ¬ (0 : Int) ≤ e := by omega
    have hexp := round_zero_exp v e (by omega)
    constructor
    · intro h
      right
      generalize (Decimal.mk v e).Round 0 = r at h hexp
      obtain ⟨rv, re⟩ := r
      simp only at hexp
      subst hexp
      have a1 : ¬ e = 0 := by omega
      have a2 : ¬ (0 : Int) = e := by omega
      have a3 : ¬ e > 0 := by omega
      have a4 : (0 - e).toNat = (-e).toNat := by congr 1; omega
      simp only [Decimal.Equal, Decimal.rescale, a1, a2, a3, he, a4, if_false, if_true,
        decide_eq_true_eq] at h
      exact ⟨rv, by show v = 10 ^ (-e).toNat * rv; rw [h]; ring⟩
    · rintro (h | ⟨n, hn⟩)
      · exact absurd h hk
      · have hv : v = n * 10 ^ (-e).toNat := by
          have hn2 : v = 10 ^ (-e).toNat * n := hn
          rw [hn2]; ring
        subst hv
        rw [round_zero_neg_exact n e he]
        have a1 : ¬ e = 0 := by omega
        have a2 : ¬ (0 : Int) = e := by omega
        have a3 : ¬ e > 0 := by omega
        have a4 : (0 - e).toNat = (-e).toNat := by congr 1; omega
        simp [Decimal.Equal, Decimal.rescale, a1, a2, a3, he, a4]
  · subst he
    simp [Decimal.Equal, Decimal.Round, Decimal.isInteger]
  · have hi : (Decimal.mk v e).isInteger := Or.inl (le_of_lt he)
    simp only [hi, iff_true]
    rw [round_zero_pos v e he]
    have a1 : ¬ e = 0 := by omega
    have a3 : ¬ e < 0 := by omega
    have a2 : ¬ (0 : Int) > e := by omega
    simp [Decimal.Equal, Decimal.rescale, a1, a2, a3]

/-! ## Strings: bytes, characters and lower-casing -/

set_option maxRecDepth 100000 in
theorem utf8_lead_two_raw : ∀ n : Fin 256,
    128 ≤ ((UInt8.mk (BitVec.ofFin n)) &&& 0x1f ||| 0xc0).toNat := by
  decide

set_option maxRecDepth 100000 in
theorem utf8_lead_three_raw : ∀ n : Fin 256,
    128 ≤ ((UInt8.mk (BitVec.ofFin n)) &&& 0x0f ||| 0xe0).toNat := by
  decide

set_option maxRecDepth 100000 in
theorem utf8_lead_four_raw : ∀ n : Fin 256,
    128 ≤ ((UInt8.mk (BitVec.ofFin n)) &&& 0x07 ||| 0xf0).toNat := by
  decide

theorem utf8_lead_two (x : UInt8) : 128 ≤ (x &&& 0x1f ||| 0xc0).toNat :=
  utf8_lead_two_raw x.toBitVec.toFin

theorem utf8_lead_three (x : UInt8) : 128 ≤ (x &&& 0x0f ||| 0xe0).toNat :=
  utf8_lead_three_raw x.toBitVec.toFin

theorem utf8_lead_four (x : UInt8) : 128 ≤ (x &&& 0x07 ||| 0xf0).toNat :=
  utf8_lead_four_raw x.toBitVec.toFin

/-- A character whose encoding starts with a byte below 128 is the ASCII
character of that byte, and the encoding has no other byte. -/
theorem utf8_head_ascii (c : Char) (b : Nat) (rest : List Nat) (hb : b < 128)
    (h : (String.utf8EncodeChar c).map UInt8.toNat = b :: rest) :
    c = Char.ofNat b ∧ rest = [] := by
  unfold String.utf8EncodeChar at h
  simp only at h
  split at h
  · rename_i hv
    simp only [List.map_cons, List.map_nil, List.cons.injEq] at h
    obtain ⟨h1, h2⟩ := h
    refine ⟨?_, h2.symm⟩
    have : c.toNat = b := by
      rw [← h1]
      have hv2 : c.val.toNat ≤ 127 := hv
      show c.val.toNat = _
      simp [UInt32.toUInt8, UInt8.toNat, Nat.toUInt8, UInt8.ofNat]
      omega
    rw [← this, Char.ofNat_toNat]
  · exfalso
    split at h
    · simp only [List.map_cons, List.cons.injEq] at h
      have := utf8_lead_two (c.val >>> 6).toUInt8
      have h1 := h.1
      omega
    · split at h
      · simp only [List.map_cons, List.cons.injEq] at h
        have := utf8_lead_three (c.val >>> 12).toUInt8
        have h1 := h.1
        omega
      · simp only [List.map_cons, List.cons.injEq] at h
        have := utf8_lead_four (c.val >>> 18).toUInt8
        have h1 := h.1
        omega

theorem utf8_ne_nil (c : Char) : (String.utf8EncodeChar c).map UInt8.toNat ≠ [] := by
  unfold String.utf8EncodeChar
  simp only
  split_ifs <;> simp

/-- An ASCII character is encoded as the one byte of its number. -/
theorem utf8_ascii (c : Char) (h : c.toNat ≤ 127) :
    (String.utf8EncodeChar c).map UInt8.toNat = [c.toNat] := by
  unfold String.utf8EncodeChar
  have hv : c.val ≤ 127 := h
  simp only [hv, if_true, List.map_cons, List.map_nil, List.cons.injEq, and_true]
  have hv2 : c.val.toNat ≤ 127 := h
  show _ = c.val.toNat
  simp [UInt32.toUInt8, UInt8.toNat, Nat.toUInt8, UInt8.ofNat]
  omega

/-- A text whose first byte is below 128 starts with that ASCII character. -/
theorem bytesOf_head_ascii (cs : List Char) (b : Nat) (bs : List Nat) (hb : b < 128)
    (h : bytesOf cs = b :: bs) : ∃ r, cs = Char.ofNat b :: r ∧ bytesOf r = bs := by
  cases cs with
  | nil => simp [bytesOf] at h
  | cons c r =>
    simp only [bytesOf, List.flatMap_cons] at h
    cases he : (String.utf8EncodeChar c).map UInt8.toNat with
    | nil => exact absurd he (utf8_ne_nil c)
    | cons b1 rest =>
      rw [he] at h
      simp only [List.cons_append, List.cons.injEq] at h
      obtain ⟨h1, h2⟩ := h
      subst h1
      obtain ⟨hc, hr⟩ := utf8_head_ascii c b1 rest hb he
      subst hr
      exact ⟨r, by rw [hc], by simpa [bytesOf] using h2⟩

/-- A text whose first two bytes are those of 0x starts with the characters
0 and x. -/
theorem data_of_0x_bytes (s : String) (h : (goBytes s).take 2 = goBytes "0x") :
    ∃ r, s.data = '0' :: 'x' :: r := by
  have hg : goBytes "0x" = [48, 120] := by decide
  rw [hg] at h
  have hs : goBytes s = bytesOf s.data := rfl
  rw [hs] at h
  cases hb : bytesOf s.data with
  | nil => rw [hb] at h; simp at h
  | cons b0 bs =>
    rw [hb] at h
    cases bs with
    | nil => simp at h
    | cons b1 bs2 =>
      simp only [List.take_succ_cons, List.take_zero, List.cons.injEq, and_true] at h
      obtain ⟨h0, h1⟩ := h
      subst h0; subst h1
      obtain ⟨r, hr, hrest⟩ := bytesOf_head_ascii s.data 48 _ (by decide) hb
      obtain ⟨r2, hr2, _⟩ := bytesOf_head_ascii r 120 _ (by decide) hrest
      exact ⟨r2, by rw [hr, hr2]⟩

theorem toNat_ofNat_ascii (n : Nat) (h : n < 128) : (Char.ofNat n).toNat = n := by
  have hv : n.isValidChar := Or.inl (by omega)
  simp only [Char.ofNat, hv, dif_pos]
  rfl

/-- The lower-casing of an ASCII character is an ASCII character that is
no letter from A to Z. -/
theorem lowerASCII_ascii (c : Char) (h : c.toNat ≤ 127) :
    (lowerASCII c).toNat ≤ 127 ∧ ¬ (65 ≤ (lowerASCII c).toNat ∧ (lowerASCII c).toNat ≤ 90) := by
  unfold lowerASCII
  split
  · rename_i hu
    rw [toNat_ofNat_ascii _ (by omega)]
    omega
  · rename_i hu
    exact ⟨h, hu⟩

/-- The characters of strings.ToLower of a text: each character of the text
through unicode.ToLower. -/
theorem ToLower_data (env : Env) (s : String) :
    (ToLower env s).data = s.data.map (unicodeToLower env) := by
  unfold ToLower
  split
  · rename_i hall
    rw [List.all_eq_true] at hall
    have hmap : s.data.map lowerASCII = s.data.map (unicodeToLower env) := by
      apply List.map_congr_left
      intro c hc
      have := hall c hc
      simp only [decide_eq_true_eq] at this
      simp [unicodeToLower, this]
    split
    · exact hmap
    · rename_i hany
      rw [← hmap]
      have hid : s.data.map lowerASCII = s.data.map id := by
        apply List.map_congr_left
        intro c hc
        simp only [List.any_eq_true, decide_eq_true_eq, not_exists, not_and] at hany
        have := hany c hc
        simp only [lowerASCII, id]
        rw [if_neg]
        exact fun hx => this hx.1 hx.2
      rw [hid, List.map_id]
  · rfl

/-- The number of bytes of an ASCII text is its number of characters. -/
theorem bytesOf_ascii_length (cs : List Char) (h : ∀ c ∈ cs, c.toNat ≤ 127) :
    (bytesOf cs).length = cs.length := by
  induction cs with
  | nil => rfl
  | cons c r ih =>
    simp only [bytesOf, List.flatMap_cons, List.length_append, List.length_cons]
    rw [utf8_ascii c (h c (List.mem_cons_self _ _))]
    have := ih (fun x hx => h x (List.mem_cons_of_mem _ hx))
    simp only [bytesOf] at this
    simp [this]
    omega

/-- A text that is another one lower-cased starts with 0x when the other
one does. -/
theorem lowered_0x (env : Env) (s t : String)
    (h : t.data = s.data.map (unicodeToLower env))
    (hp : (goBytes s).take 2 = goBytes "0x") : ∃ r, t.data = '0' :: 'x' :: r := by
  obtain ⟨r, hr⟩ := data_of_0x_bytes s hp
  refine ⟨r.map (unicodeToLower env), ?_⟩
  rw [h, hr]
  simp only [List.map_cons, List.cons.injEq, and_true]
  have h0 : lowerASCII '0' = '0' := by decide
  have hx : lowerASCII 'x' = 'x' := by decide
  have a0 : ('0' : Char).toNat ≤ 127 := by decide
  have ax : ('x' : Char).toNat ≤ 127 := by decide
  simp only [unicodeToLower, a0, ax, if_true, h0, hx, and_self]

/-- A text that is an ASCII one lower-cased has its number of bytes, is
ASCII and has no letter from A to Z. -/
theorem lowered_ascii (env : Env) (s t : String)
    (h : t.data = s.data.map (unicodeToLower env)) (ha : ∀ c ∈ s.data, c.toNat ≤ 127) :
    len t = len s ∧ ∀ c ∈ t.data, c.toNat ≤ 127 ∧ ¬ (65 ≤ c.toNat ∧ c.toNat ≤ 90) := by
  have hall : ∀ c ∈ t.data, c.toNat ≤ 127 ∧ ¬ (65 ≤ c.toNat ∧ c.toNat ≤ 90) := by
    intro c hc
    rw [h, List.mem_map] at hc
    obtain ⟨c0, hc0, rfl⟩ := hc
    have h0 := ha c0 hc0
    simp only [unicodeToLower, h0, if_true]
    exact lowerASCII_ascii c0 h0
  refine ⟨?_, hall⟩
  show (bytesOf t.data).length = (bytesOf s.data).length
  rw [bytesOf_ascii_length _ (fun c hc => (hall c hc).1), bytesOf_ascii_length _ ha, h,
    List.length_map]

/-- A text that is another one lower-cased, position by position: an ASCII
letter from A to Z is moved to its lower-case letter, any other ASCII
character stays, a character above ASCII goes through the Unicode table. -/
theorem lowered_at (env : Env) (s t : String)
    (h : t.data = s.data.map (unicodeToLower env)) (i : Nat) (c : Char)
    (hc : s.data[i]? = some c) :
    t.data[i]? = some (if c.toNat ≤ 127 then
      (if 65 ≤ c.toNat ∧ c.toNat ≤ 90 then Char.ofNat (c.toNat + 32) else c)
      else env.lowerTable c) := by
  rw [h, List.getElem?_map, hc]
  rfl

/-! ## createLog -/

theorem count_pos_iff (db : DB) (t i : String) :
    0 < db.Count t i ↔ ∃ r ∈ db.rows, r.ItemType = t ∧ r.ItemID = i := by
  unfold DB.Count
  rw [List.length_pos_iff_exists_mem]
  constructor
  · rintro ⟨r, hr⟩
    rw [List.mem_filter] at hr
    exact ⟨r, hr.1, by simpa using hr.2⟩
  · rintro ⟨r, hr, h⟩
    exact ⟨r, List.mem_filter.mpr ⟨hr, by simpa using h⟩⟩

/-- Once the value, gas-price and address checks have passed and the count
query has answered, createLog is decided by the count and the insert. -/
theorem createLog_checked (env : Env) (w : World) (msg : CreateMessage)
    (value gasPrice : Decimal)
    (hv : parseValue msg = .ok value) (hg : parseGasPrice env msg = .ok gasPrice)
    (hf : sliceTo msg.From 2 = some (goBytes "0x")) (hfl : len msg.From = 42)
    (ht : sliceTo msg.To 2 = some (goBytes "0x")) (htl : len msg.To = 42)
    (hc : env.countErr = none) :
    createLog env w msg =
      if w.DB.Count msg.ItemType msg.ItemId > 0 then (.error .itemExists, w)
      else match env.createErr with
        | some e => (.error (.store e), w)
        | none =>
          let key := getSubscribeHubKey msg.ItemType msg.ItemId
          let handler := Handler.createCallback w.nextCallback
          let w1 : World :=
            { DB := w.DB.Create (newLog env msg value gasPrice)
              subscribeHub := w.subscribeHub.Register key handler
              NewRequestChannel := w.NewRequestChannel
              nextCallback := w.nextCallback + 1 }
          if w.NewRequestChannel < 100 then
            (.waiting key handler, { w1 with NewRequestChannel := w.NewRequestChannel + 1 })
          else (.blockedOnSend key handler, w1) := by
  unfold createLog
  simp only [hv, hg, hf, hfl, ht, htl, hc, ne_eq, not_true_eq_false, or_self, if_false]

/-- A call of createLog that returns an error or panics leaves the state as it was. -/
theorem createLog_stop_unchanged (env : Env) (w : World) (msg : CreateMessage)
    (h1 : ∀ key h, (createLog env w msg).1 ≠ .waiting key h)
    (h2 : ∀ key h, (createLog env w msg).1 ≠ .blockedOnSend key h) :
    (createLog env w msg).2 = w := by
  cases hv : parseValue msg with
  | error e => simp only [createLog, hv]
  | ok value =>
  cases hg : parseGasPrice env msg with
  | error e => simp only [createLog, hv, hg]
  | ok gasPrice =>
  cases hf : sliceTo msg.From 2 with
  | none => simp only [createLog, hv, hg, hf]
  | some fromHead =>
  by_cases hfc : fromHead ≠ goBytes "0x" ∨ len msg.From ≠ 42
  · simp only [createLog, hv, hg, hf, if_pos hfc]
  cases ht : sliceTo msg.To 2 with
  | none => simp only [createLog, hv, hg, hf, if_neg hfc, ht]
  | some toHead =>
  by_cases htc : toHead ≠ goBytes "0x" ∨ len msg.To ≠ 42
  · simp only [createLog, hv, hg, hf, if_neg hfc, ht, if_pos htc]
  cases hc : env.countErr with
  | some e => simp only [createLog, hv, hg, hf, if_neg hfc, ht, if_neg htc, hc]
  | none =>
  by_cases hcnt : w.DB.Count msg.ItemType msg.ItemId > 0
  · simp only [createLog, hv, hg, hf, if_neg hfc, ht, if_neg htc, hc, if_pos hcnt]
  cases hce : env.createErr with
  | some e => simp only [createLog, hv, hg, hf, if_neg hfc, ht, if_neg htc, hc, if_neg hcnt, hce]
  | none =>
  exfalso
  by_cases hn : w.NewRequestChannel < 100
  · refine h1 (getSubscribeHubKey msg.ItemType msg.ItemId) (Handler.createCallback w.nextCallback) ?_
    simp only [createLog, hv, hg, hf, if_neg hfc, ht, if_neg htc, hc, if_neg hcnt, hce,
      if_pos hn]
  · refine h2 (getSubscribeHubKey msg.ItemType msg.ItemId) (Handler.createCallback w.nextCallback) ?_
    simp only [createLog, hv, hg, hf, if_neg hfc, ht, if_neg htc, hc, if_neg hcnt, hce,
      if_neg hn]

/-- A call of createLog either stops with the state as it was, or has passed
every check and leaves the state with the new log inserted and the callback
registered. -/
theorem createLog_cases (env : Env) (w : World) (msg : CreateMessage) :
    ((createLog env w msg).2 = w ∧
      (∀ key h, (createLog env w msg).1 ≠ .waiting key h) ∧
      (∀ key h, (createLog env w msg).1 ≠ .blockedOnSend key h)) ∨
    ∃ value gasPrice, Checked env w msg value gasPrice ∧
      (createLog env w msg).2.DB = w.DB.Create (newLog env msg value gasPrice) ∧
      (createLog env w msg).2.subscribeHub =
        w.subscribeHub.Register (getSubscribeHubKey msg.ItemType msg.ItemId)
          (Handler.createCallback w.nextCallback) := by
  by_cases h : (∀ key h, (createLog env w msg).1 ≠ .waiting key h) ∧
      (∀ key h, (createLog env w msg).1 ≠ .blockedOnSend key h)
  · exact Or.inl ⟨createLog_stop_unchanged env w msg h.1 h.2, h⟩
  right
  cases hv : parseValue msg with
  | error e => exact absurd (by simp [createLog, hv]) h
  | ok value =>
  cases hg : parseGasPrice env msg with
  | error e => exact absurd (by simp [createLog, hv, hg]) h
  | ok gasPrice =>
  cases hf : sliceTo msg.From 2 with
  | none => exact absurd (by simp [createLog, hv, hg, hf]) h
  | some fromHead =>
  by_cases hfc : fromHead ≠ goBytes "0x" ∨ len msg.From ≠ 42
  · exact absurd (by simp only [createLog, hv, hg, hf, if_pos hfc]; simp) h
  cases ht : sliceTo msg.To 2 with
  | none => exact absurd (by simp only [createLog, hv, hg, hf, if_neg hfc, ht]; simp) h
  | some toHead =>
  by_cases htc : toHead ≠ goBytes "0x" ∨ len msg.To ≠ 42
  · exact absurd (by simp only [createLog, hv, hg, hf, if_neg hfc, ht, if_pos htc]; simp) h
  cases hc : env.countErr with
  | some e =>
    exact absurd (by simp only [createLog, hv, hg, hf, if_neg hfc, ht, if_neg htc, hc]; simp) h
  | none =>
  by_cases hcnt : w.DB.Count msg.ItemType msg.ItemId > 0
  · exact absurd (by
      simp only [createLog, hv, hg, hf, if_neg hfc, ht, if_neg htc, hc, if_pos hcnt]; simp) h
  cases hce : env.createErr with
  | some e =>
    exact absurd (by
      simp only [createLog, hv, hg, hf, if_neg hfc, ht, if_neg htc, hc, if_neg hcnt, hce]
      simp) h
  | none =>
  have hfc2 : fromHead = goBytes "0x" ∧ len msg.From = 42 := by
    constructor
    · by_contra hx; exact hfc (Or.inl hx)
    · by_contra hx; exact hfc (Or.inr hx)
  have htc2 : toHead = goBytes "0x" ∧ len msg.To = 42 := by
    constructor
    · by_contra hx; exact htc (Or.inl hx)
    · by_contra hx; exact htc (Or.inr hx)
  refine ⟨value, gasPrice, ⟨hv, hg, by rw [hf, hfc2.1], hfc2.2, by rw [ht, htc2.1], htc2.2,
    hc, by omega, hce⟩, ?_, ?_⟩
  · simp only [createLog, hv, hg, hf, if_neg hfc, ht, if_neg htc, hc, if_neg hcnt, hce]
    split <;> rfl
  · simp only [createLog, hv, hg, hf, if_neg hfc, ht, if_neg htc, hc, if_neg hcnt, hce]
    split <;> rfl
/-- A state in which createLog has inserted a log differs from the state
before it, so the call went through every check. -/
theorem createLog_inserted (env : Env) (w : World) (msg : CreateMessage) (log : LaunchLog)
    (h : (createLog env w msg).2.DB.rows = w.DB.rows ++ [log]) :
    ∃ value gasPrice, Checked env w msg value gasPrice ∧
      log = { newLog env msg value gasPrice with ID := w.DB.nextID } := by
  rcases createLog_cases env w msg with ⟨h0, _⟩ | ⟨value, gasPrice, hch, hdb, _⟩
  · rw [h0] at h
    have := congrArg List.length h
    simp at this
  · refine ⟨value, gasPrice, hch, ?_⟩
    rw [hdb] at h
    simp only [DB.Create] at h
    have := List.append_cancel_left h
    simpa using this.symm

/-- C2, amended. For every CreateMessage whose (item_type, item_id) already
has a log in the store, in whatever status: createLog leaves the state as it
was (no log inserted, no callback registered, nothing sent on the wake
channel); and when the request passes the value, gas-price and address
checks and the count query answers, createLog returns the error "item_type
and item_id exists". -/
theorem createLog_rejects_duplicate (env : Env) (w : World) (msg : CreateMessage)
    (hdup : ∃ r ∈ w.DB.rows, r.ItemType = msg.ItemType ∧ r.ItemID = msg.ItemId) :
    (createLog env w msg).2 = w ∧
    (∀ value gasPrice, parseValue msg = .ok value → parseGasPrice env msg = .ok gasPrice →
      sliceTo msg.From 2 = some (goBytes "0x") → len msg.From = 42 →
      sliceTo msg.To 2 = some (goBytes "0x") → len msg.To = 42 →
      env.countErr = none →
      createLog env w msg = (.error .itemExists, w)) := by
  have hpos := (count_pos_iff w.DB msg.ItemType msg.ItemId).mpr hdup
  constructor
  · rcases createLog_cases env w msg with ⟨h0, _⟩ | ⟨value, gasPrice, hch, _⟩
    · exact h0
    · have := hch.2.2.2.2.2.2.2.1
      omega
  · intro value gasPrice hv hg hf hfl ht htl hc
    rw [createLog_checked env w msg value gasPrice hv hg hf hfl ht htl hc]
    simp [hpos]

/-- C2, witness: a second request for the intent (T, a) is rejected. -/
theorem createLog_rejects_duplicate_witness :
    (∃ r ∈ worldWithLog.DB.rows,
        r.ItemType = exampleMsg.ItemType ∧ r.ItemID = exampleMsg.ItemId) ∧
      createLog exampleEnv worldWithLog exampleMsg = (.error .itemExists, worldWithLog) :=
  ⟨by decide,
    (createLog_rejects_duplicate exampleEnv worldWithLog exampleMsg (by decide)).2
      ⟨0, 0⟩ ⟨10000000000, 0⟩ (by rfl) (by rfl) (by decide) (by decide) (by decide)
      (by decide) (by decide)⟩

/-- C2, counterexample. The store holds a log for (T, a) and a request for
(T, a) with the value "abc" is not answered with the duplicate error: the
value check comes first and returns "convert value to decimal failed". -/
theorem createLog_duplicate_bad_value :
    (∃ r ∈ worldWithLog.DB.rows,
        r.ItemType = badValueMsg.ItemType ∧ r.ItemID = badValueMsg.ItemId) ∧
      createLog exampleEnv worldWithLog badValueMsg = (.error .convertValue, worldWithLog) ∧
      (createLog exampleEnv worldWithLog badValueMsg).1 ≠ .error .itemExists := by
  decide

/-- C10, at the failing inputs. With an empty from address, or with a to
address of one character, createLog does not return a validation error: the
slice msg.From[:2] (msg.To[:2]) is out of range and the call panics. -/
theorem createLog_short_address_panics :
    createLog exampleEnv emptyWorld emptyFromMsg = (.panic, emptyWorld) ∧
      createLog exampleEnv emptyWorld shortToMsg = (.panic, emptyWorld) := by
  decide
/-- The slice s[:2] of a string of at least two bytes. -/
theorem sliceTo_two (s : String) (h : 2 ≤ len s) : sliceTo s 2 = some ((goBytes s).take 2) := by
  simp [sliceTo, h]

/-- C3, amended. For every CreateMessage whose from and to have at least
two bytes: if from or to does not start with 0x or is not 42 bytes long,
createLog returns a validation error and leaves the state as it was (no log
inserted). Every log createLog inserts comes from a request whose from and to
start with 0x and are 42 bytes long, and its own from and to are those
addresses lower-cased: they start with 0x, and when the request address is
ASCII they are 42 bytes long, ASCII, and hold no letter from A to Z. The 40
characters after 0x are not examined. -/
theorem createLog_address_checks (env : Env) (w : World) (msg : CreateMessage) :
    (2 ≤ len msg.From → 2 ≤ len msg.To →
      ((goBytes msg.From).take 2 ≠ goBytes "0x" ∨ len msg.From ≠ 42 ∨
        (goBytes msg.To).take 2 ≠ goBytes "0x" ∨ len msg.To ≠ 42) →
      ∃ e, e.isValidation = true ∧ createLog env w msg = (.error e, w)) ∧
    (∀ log, (createLog env w msg).2.DB.rows = w.DB.rows ++ [log] →
      (goBytes msg.From).take 2 = goBytes "0x" ∧ len msg.From = 42 ∧
      (goBytes msg.To).take 2 = goBytes "0x" ∧ len msg.To = 42 ∧
      log.From = ToLower env msg.From ∧ log.To = ToLower env msg.To ∧
      (∃ r, log.From.data = '0' :: 'x' :: r) ∧ (∃ r, log.To.data = '0' :: 'x' :: r) ∧
      (goBytes log.From).take 2 = goBytes "0x" ∧ (goBytes log.To).take 2 = goBytes "0x" ∧
      ((∀ c ∈ msg.From.data, c.toNat ≤ 127) →
        len log.From = 42 ∧
        ∀ c ∈ log.From.data, c.toNat ≤ 127 ∧ ¬ (65 ≤ c.toNat ∧ c.toNat ≤ 90)) ∧
      ((∀ c ∈ msg.To.data, c.toNat ≤ 127) →
        len log.To = 42 ∧
        ∀ c ∈ log.To.data, c.toNat ≤ 127 ∧ ¬ (65 ≤ c.toNat ∧ c.toNat ≤ 90))) := by
  constructor
  · intro hF hT hbad
    have hf := sliceTo_two msg.From hF
    have ht := sliceTo_two msg.To hT
    cases hv : parseValue msg with
    | error e =>
      refine ⟨e, ?_, by simp only [createLog, hv]⟩
      unfold parseValue at hv
      split at hv
      · cases hv
      · split at hv
        · cases hv; rfl
        · split at hv
          · cases hv; rfl
          · cases hv
    | ok value =>
    cases hg : parseGasPrice env msg with
    | error e =>
      refine ⟨e, ?_, by simp only [createLog, hv, hg]⟩
      unfold parseGasPrice at hg
      split at hg
      · cases hg
      · split at hg
        · cases hg; rfl
        · cases hg
    | ok gasPrice =>
    by_cases hfc : (goBytes msg.From).take 2 ≠ goBytes "0x" ∨ len msg.From ≠ 42
    · exact ⟨.fromFormat, rfl, by simp only [createLog, hv, hg, hf, if_pos hfc]⟩
    have htc : (goBytes msg.To).take 2 ≠ goBytes "0x" ∨ len msg.To ≠ 42 := by
      rcases hbad with h | h | h | h
      · exact absurd (Or.inl h) hfc
      · exact absurd (Or.inr h) hfc
      · exact Or.inl h
      · exact Or.inr h
    exact ⟨.toFormat, rfl, by simp only [createLog, hv, hg, hf, if_neg hfc, ht, if_pos htc]⟩
  · intro log h
    obtain ⟨value, gasPrice, hch, hlog⟩ := createLog_inserted env w msg log h
    obtain ⟨_, _, hf, hfl, ht, htl, _⟩ := hch
    have hF : 2 ≤ len msg.From := by omega
    have hT : 2 ≤ len msg.To := by omega
    rw [sliceTo_two _ hF] at hf
    rw [sliceTo_two _ hT] at ht
    have hpf := Option.some.inj hf
    have hpt := Option.some.inj ht
    have hlf : log.From = ToLower env msg.From := by rw [hlog]; rfl
    have hlt : log.To = ToLower env msg.To := by rw [hlog]; rfl
    have hdf : log.From.data = msg.From.data.map (unicodeToLower env) := by
      rw [hlf]; exact ToLower_data env msg.From
    have hdt : log.To.data = msg.To.data.map (unicodeToLower env) := by
      rw [hlt]; exact ToLower_data env msg.To
    obtain ⟨rf, hrf⟩ := lowered_0x env msg.From log.From hdf hpf
    obtain ⟨rt, hrt⟩ := lowered_0x env msg.To log.To hdt hpt
    have hbytes : ∀ (s : String) (r : List Char), s.data = '0' :: 'x' :: r →
        (goBytes s).take 2 = goBytes "0x" := by
      intro s r hs
      have h2 : goBytes s = bytesOf s.data := rfl
      rw [h2, hs]
      rfl
    refine ⟨hpf, hfl, hpt, htl, hlf, hlt, ⟨rf, hrf⟩, ⟨rt, hrt⟩, hbytes _ _ hrf, hbytes _ _ hrt,
      ?_, ?_⟩
    · intro ha
      have := lowered_ascii env msg.From log.From hdf ha
      exact ⟨by rw [this.1, hfl], this.2⟩
    · intro ha
      have := lowered_ascii env msg.To log.To hdt ha
      exact ⟨by rw [this.1, htl], this.2⟩

/-- C3, witness: a from address of four bytes is refused, and the log
inserted for a request with upper-case digits in its from address holds the
address in lower case. -/
theorem createLog_address_checks_witness :
    (∃ e, e.isValidation = true ∧
      createLog exampleEnv emptyWorld shortFromMsg = (.error e, emptyWorld)) ∧
    (({ newLog exampleEnv upperCaseMsg ⟨0, 0⟩ ⟨10000000000, 0⟩ with ID := 1 } : LaunchLog).From
        = "0xabaaaaaaaaaaaaaaaaaaaaaaaaaaaaaaaaaaaaaa" ∧
      len ({ newLog exampleEnv upperCaseMsg ⟨0, 0⟩ ⟨10000000000, 0⟩ with ID := 1 } :
        LaunchLog).From = 42) :=
  ⟨(createLog_address_checks exampleEnv emptyWorld shortFromMsg).1 (by decide) (by decide)
      (Or.inr (Or.inl (by decide))),
    let h := (createLog_address_checks exampleEnv emptyWorld upperCaseMsg).2
      { newLog exampleEnv upperCaseMsg ⟨0, 0⟩ ⟨10000000000, 0⟩ with ID := 1 } (by decide)
    ⟨h.2.2.2.2.1.trans (by decide), (h.2.2.2.2.2.2.2.2.2.2.1 (by decide)).1⟩⟩

/-- C3, counterexample. The from address 0x followed by forty letters z does
not match ^0x[0-9a-fA-F]{40}$, and createLog returns no error for it: the call
goes on to wait for its callback with a log inserted whose from is that
text. -/
theorem createLog_accepts_non_hex_address :
    matchesAddressPattern nonHexMsg.From = false ∧
      (createLog exampleEnv emptyWorld nonHexMsg).1 =
        .waiting "Type:T-ID:a" (Handler.createCallback 0) ∧
      (createLog exampleEnv emptyWorld nonHexMsg).2.DB.rows.map (fun r => r.From) =
        [nonHexMsg.From] ∧
      ((createLog exampleEnv emptyWorld nonHexMsg).2.DB.rows.all
        (fun r => matchesAddressPattern r.From)) = false := by
  decide
/-- C4. For every CreateMessage that passes the value, gas-price and address
checks and the duplicate check (the count query answers 0), with a gas limit
in the range of uint64 and a store that accepts the insert, createLog inserts
exactly one log, and that log has status CREATED, no nonce and no hash, the
gas limit, data, item type, item id and urgency of the request, and as from
and to the lower-cased addresses of the request: character by character, a
letter from A to Z is replaced by its lower-case letter, any other ASCII
character is kept, and a character above ASCII is replaced by what the
Unicode table gives for it. -/
theorem createLog_inserts_created_log (env : Env) (w : World) (msg : CreateMessage)
    (value gasPrice : Decimal) (hch : Checked env w msg value gasPrice)
    (hgl : msg.GasLimit < 2 ^ 64) :
    ∃ log, (createLog env w msg).2.DB.rows = w.DB.rows ++ [log] ∧
      log.Status = "CREATED" ∧ log.Nonce.Valid = false ∧ log.Hash.Valid = false ∧
      log.From = ToLower env msg.From ∧ log.To = ToLower env msg.To ∧
      log.GasLimit = msg.GasLimit ∧ log.Data = msg.Data ∧
      log.ItemType = msg.ItemType ∧ log.ItemID = msg.ItemId ∧
      log.IsUrgent = msg.IsUrgent ∧
      log.From.data.length = msg.From.data.length ∧
      log.To.data.length = msg.To.data.length ∧
      (∀ (i : Nat) (c : Char), msg.From.data[i]? = some c →
        log.From.data[i]? = some (if c.toNat ≤ 127 then
          (if 65 ≤ c.toNat ∧ c.toNat ≤ 90 then Char.ofNat (c.toNat + 32) else c)
          else env.lowerTable c)) ∧
      (∀ (i : Nat) (c : Char), msg.To.data[i]? = some c →
        log.To.data[i]? = some (if c.toNat ≤ 127 then
          (if 65 ≤ c.toNat ∧ c.toNat ≤ 90 then Char.ofNat (c.toNat + 32) else c)
          else env.lowerTable c)) ∧
      ((∀ c ∈ msg.From.data, c.toNat ≤ 127) →
        ∀ c ∈ log.From.data, c.toNat ≤ 127 ∧ ¬ (65 ≤ c.toNat ∧ c.toNat ≤ 90)) ∧
      ((∀ c ∈ msg.To.data, c.toNat ≤ 127) →
        ∀ c ∈ log.To.data, c.toNat ≤ 127 ∧ ¬ (65 ≤ c.toNat ∧ c.toNat ≤ 90)) := by
  obtain ⟨hv, hg, hf, hfl, ht, htl, hc, hcnt, hce⟩ := hch
  have hdf : (ToLower env msg.From).data = msg.From.data.map (unicodeToLower env) :=
    ToLower_data env msg.From
  have hdt : (ToLower env msg.To).data = msg.To.data.map (unicodeToLower env) :=
    ToLower_data env msg.To
  refine ⟨{ newLog env msg value gasPrice with ID := w.DB.nextID }, ?_, rfl, rfl, rfl, rfl,
    rfl, Nat.mod_eq_of_lt hgl, rfl, rfl, rfl, rfl, ?_, ?_, ?_, ?_, ?_, ?_⟩
  · rw [createLog_checked env w msg value gasPrice hv hg hf hfl ht htl hc]
    have h0 : ¬ w.DB.Count msg.ItemType msg.ItemId > 0 := by omega
    simp only [if_neg h0, hce]
    split <;> rfl
  · show (ToLower env msg.From).data.length = _
    rw [hdf, List.length_map]
  · show (ToLower env msg.To).data.length = _
    rw [hdt, List.length_map]
  · intro i c hic
    exact lowered_at env msg.From (ToLower env msg.From) hdf i c hic
  · intro i c hic
    exact lowered_at env msg.To (ToLower env msg.To) hdt i c hic
  · intro ha
    exact (lowered_ascii env msg.From (ToLower env msg.From) hdf ha).2
  · intro ha
    exact (lowered_ascii env msg.To (ToLower env msg.To) hdt ha).2

/-- C4, witness: the log inserted into the empty table for a request with
upper-case digits in its from address; the third character of the address,
the letter A, is stored as the letter a. -/
theorem createLog_inserts_created_log_witness :
    ∃ log, (createLog exampleEnv emptyWorld upperCaseMsg).2.DB.rows
        = emptyWorld.DB.rows ++ [log] ∧
      log.Status = "CREATED" ∧ log.Nonce.Valid = false ∧ log.Hash.Valid = false ∧
      log.GasLimit = upperCaseMsg.GasLimit ∧
      log.From.data[2]? = some 'a' ∧ log.To = upperCaseMsg.To :=
  let ⟨log, h⟩ := createLog_inserts_created_log exampleEnv emptyWorld upperCaseMsg ⟨0, 0⟩
    ⟨10000000000, 0⟩
    ⟨by rfl, by rfl, by decide, by decide, by decide, by decide, by decide, by decide,
      by decide⟩ (by decide)
  ⟨log, h.1, h.2.1, h.2.2.1, h.2.2.2.1, h.2.2.2.2.2.2.1,
    h.2.2.2.2.2.2.2.2.2.2.2.2.2.1 2 'A' (by decide),
    h.2.2.2.2.2.1.trans (by decide)⟩

/-- C5, amended. An omitted (empty) value is stored as decimal.Zero, the
number 0. A non-empty value that does not parse makes createLog return the
error "convert value to decimal failed", one that parses to a number that is
not an integer (such as "1.5") the error "value must be an integer, not a
decimal"; a non-empty value that parses to an integer, negative ones included,
passes the value check, and a log that createLog inserts holds that
decimal. -/
theorem createLog_value_rule (env : Env) (w : World) (msg : CreateMessage) :
    (msg.Value ≠ "" → NewFromString msg.Value = none →
      createLog env w msg = (.error .convertValue, w)) ∧
    (msg.Value ≠ "" → ∀ d, NewFromString msg.Value = some d → ¬ d.isInteger →
      createLog env w msg = (.error .valueNotInteger, w)) ∧
    (msg.Value ≠ "" → ∀ d, NewFromString msg.Value = some d → d.isInteger →
      parseValue msg = .ok d) ∧
    (∀ log, (createLog env w msg).2.DB.rows = w.DB.rows ++ [log] →
      (msg.Value = "" ∧ log.Value = Decimal.Zero ∧ log.Value.denotes 0) ∨
      (msg.Value ≠ "" ∧ ∃ d, NewFromString msg.Value = some d ∧ d.isInteger ∧
        log.Value = d)) := by
  refine ⟨?_, ?_, ?_, ?_⟩
  · intro hne hp
    have hv : parseValue msg = .error .convertValue := by simp [parseValue, hne, hp]
    simp only [createLog, hv]
  · intro hne d hp hni
    have hq : d.Equal (d.Round 0) = false := by
      rw [← Bool.not_eq_true, equal_round_iff_isInteger]; exact hni
    have hv : parseValue msg = .error .valueNotInteger := by simp [parseValue, hne, hp, hq]
    simp only [createLog, hv]
  · intro hne d hp hi
    have hq : d.Equal (d.Round 0) = true := (equal_round_iff_isInteger d).mpr hi
    simp [parseValue, hne, hp, hq]
  · intro log h
    obtain ⟨value, gasPrice, hch, hlog⟩ := createLog_inserted env w msg log h
    have hv := hch.1
    have hval : log.Value = value := by rw [hlog]; rfl
    by_cases he : msg.Value = ""
    · left
      have : value = Decimal.Zero := by
        simp only [parseValue, he, if_true] at hv
        cases hv; rfl
      rw [hval, this]
      exact ⟨he, rfl, by decide⟩
    · right
      refine ⟨he, ?_⟩
      simp only [parseValue, he, if_false] at hv
      cases hp : NewFromString msg.Value with
      | none => rw [hp] at hv; cases hv
      | some d =>
        rw [hp] at hv
        simp only at hv
        by_cases hq : d.Equal (d.Round 0) = true
        · simp only [hq, Bool.not_true] at hv
          cases hv
          exact ⟨value, rfl, (equal_round_iff_isInteger value).mp hq, hval⟩
        · simp only [Bool.not_eq_true] at hq
          simp only [hq, Bool.not_false, if_true] at hv
          cases hv

/-- C5, witness: "1.5" is refused as not an integer, "abc" as no decimal. -/
theorem createLog_value_rule_witness :
    createLog exampleEnv emptyWorld { exampleMsg with Value := "1.5" }
        = (.error .valueNotInteger, emptyWorld) ∧
      createLog exampleEnv emptyWorld badValueMsg = (.error .convertValue, emptyWorld) :=
  ⟨(createLog_value_rule exampleEnv emptyWorld { exampleMsg with Value := "1.5" }).2.1
      (by decide) ⟨15, -1⟩ (by decide) (by decide),
    (createLog_value_rule exampleEnv emptyWorld badValueMsg).1 (by decide) (by decide)⟩

/-- C5, counterexample. The value "-1" parses to the negative integer -1 and
createLog does not return a validation error: the call goes on to wait for
its callback with a log inserted whose value is -1. -/
theorem createLog_accepts_negative_value :
    NewFromString negativeValueMsg.Value = some ⟨-1, 0⟩ ∧
      (⟨-1, 0⟩ : Decimal).denotes (-1) ∧
      (createLog exampleEnv emptyWorld negativeValueMsg).1 =
        .waiting "Type:T-ID:a" (Handler.createCallback 0) ∧
      (createLog exampleEnv emptyWorld negativeValueMsg).2.DB.rows.map (fun r => r.Value) =
        [⟨-1, 0⟩] := by
  decide

/-! ## Subscribe hub -/

theorem mapGet_mapSet_same {K V : Type} [DecidableEq K] (m : List (K × V)) (k : K) (v : V) :
    mapGet (mapSet m k v) k = some v := by
  induction m with
  | nil => simp [mapSet, mapGet]
  | cons p m ih =>
    obtain ⟨k1, v1⟩ := p
    by_cases h : k1 = k
    · simp [mapSet, mapGet, h]
    · simp [mapSet, mapGet, h, ih]

theorem mapGet_mapSet_other {K V : Type} [DecidableEq K] (m : List (K × V)) (k k2 : K) (v : V)
    (hk : k2 ≠ k) : mapGet (mapSet m k v) k2 = mapGet m k2 := by
  induction m with
  | nil => simp [mapSet, mapGet, Ne.symm hk]
  | cons p m ih =>
    obtain ⟨k1, v1⟩ := p
    by_cases h : k1 = k
    · subst h
      simp [mapSet, mapGet, Ne.symm hk]
    · by_cases h2 : k1 = k2
      · subst h2
        simp [mapSet, mapGet, h]
      · simp [mapSet, mapGet, h, h2, ih]

theorem mapGet_mapDelete_same {K V : Type} [DecidableEq K] (m : List (K × V)) (k : K) :
    mapGet (mapDelete m k) k = none := by
  induction m with
  | nil => simp [mapDelete, mapGet]
  | cons p m ih =>
    obtain ⟨k1, v1⟩ := p
    unfold mapDelete at ih ⊢
    by_cases h : k1 = k
    · simp [List.filter, h, ih]
    · simp [List.filter, h, mapGet, ih]

theorem mapGet_mapDelete_other {K V : Type} [DecidableEq K] (m : List (K × V)) (k k2 : K)
    (hk : k2 ≠ k) : mapGet (mapDelete m k) k2 = mapGet m k2 := by
  induction m with
  | nil => simp [mapDelete, mapGet]
  | cons p m ih =>
    obtain ⟨k1, v1⟩ := p
    unfold mapDelete at ih ⊢
    by_cases h : k1 = k
    · subst h
      simp [List.filter, mapGet, Ne.symm hk, ih]
    · by_cases h2 : k1 = k2
      · subst h2
        simp [List.filter, h, mapGet]
      · simp [List.filter, h, mapGet, h2, ih]

theorem mapDelete_absent {K V : Type} [DecidableEq K] (m : List (K × V)) (k : K)
    (h : mapGet m k = none) : mapDelete m k = m := by
  induction m with
  | nil => rfl
  | cons p m ih =>
    obtain ⟨k1, v1⟩ := p
    unfold mapDelete at ih ⊢
    by_cases h1 : k1 = k
    · simp [mapGet, h1] at h
    · simp only [mapGet, h1, if_false] at h
      simp [List.filter, h1, ih h]

theorem mapSet_same_value {K V : Type} [DecidableEq K] (m : List (K × V)) (k : K) (v : V)
    (h : mapGet m k = some v) : mapSet m k v = m := by
  induction m with
  | nil => simp [mapGet] at h
  | cons p m ih =>
    obtain ⟨k1, v1⟩ := p
    by_cases h1 : k1 = k
    · simp only [mapGet, h1, if_true] at h
      cases h
      simp [mapSet, h1]
    · simp only [mapGet, h1, if_false] at h
      simp [mapSet, h1, ih h]

theorem mapSet_ne_nil {K V : Type} [DecidableEq K] (m : List (K × V)) (k : K) (v : V) :
    mapSet m k v ≠ [] := by
  cases m with
  | nil => simp [mapSet]
  | cons p m =>
    obtain ⟨k1, v1⟩ := p
    by_cases h1 : k1 = k <;> simp [mapSet, h1]

/-- After Register the key holds the old handlers with the new one set. -/
theorem register_get_same (sb : SubscribeHub) (key : String) (h : Handler) :
    mapGet (sb.Register key h).data key =
      some (mapSet ((mapGet sb.data key).getD []) h true) := by
  unfold SubscribeHub.Register
  cases hk : mapGet sb.data key with
  | none => simp [mapGet_mapSet_same]
  | some hs => simp [hk, mapGet_mapSet_same]

theorem register_get_other (sb : SubscribeHub) (key key2 : String) (h : Handler)
    (hk : key2 ≠ key) : mapGet (sb.Register key h).data key2 = mapGet sb.data key2 := by
  unfold SubscribeHub.Register
  cases hg : mapGet sb.data key with
  | none => simp [mapGet_mapSet_same, mapGet_mapSet_other _ _ _ _ hk]
  | some hs => simp [hg, mapGet_mapSet_other _ _ _ _ hk]

theorem remove_get_other (sb : SubscribeHub) (key key2 : String) (h : Handler)
    (hk : key2 ≠ key) : mapGet (sb.Remove key h).data key2 = mapGet sb.data key2 := by
  unfold SubscribeHub.Remove
  cases hg : mapGet sb.data key with
  | none => rfl
  | some hs =>
    simp only
    split
    · rw [mapGet_mapDelete_other _ _ _ hk, mapGet_mapSet_other _ _ _ _ hk]
    · rw [mapGet_mapSet_other _ _ _ _ hk]

theorem remove_get_same (sb : SubscribeHub) (key : String) (h : Handler) (hs : List (Handler × Bool))
    (hg : mapGet sb.data key = some hs) :
    mapGet (sb.Remove key h).data key =
      if (mapDelete hs h).length = 0 then none else some (mapDelete hs h) := by
  unfold SubscribeHub.Remove
  simp only [hg]
  split
  · rw [mapGet_mapDelete_same]
  · rw [mapGet_mapSet_same]

theorem noEmptySet_init : NoEmptySet InitSubscribeHub := by
  intro key; simp [InitSubscribeHub, mapGet]

theorem noEmptySet_register (sb : SubscribeHub) (key : String) (h : Handler)
    (hinv : NoEmptySet sb) : NoEmptySet (sb.Register key h) := by
  intro key2
  by_cases hk : key2 = key
  · subst hk
    rw [register_get_same]
    intro hc
    exact mapSet_ne_nil _ _ _ (Option.some.inj hc)
  · rw [register_get_other _ _ _ _ hk]
    exact hinv key2

theorem noEmptySet_remove (sb : SubscribeHub) (key : String) (h : Handler)
    (hinv : NoEmptySet sb) : NoEmptySet (sb.Remove key h) := by
  intro key2
  by_cases hk : key2 = key
  · subst hk
    cases hg : mapGet sb.data key2 with
    | none =>
      have : sb.Remove key2 h = sb := by simp [SubscribeHub.Remove, hg]
      rw [this, hg]; simp
    | some hs =>
      rw [remove_get_same _ _ _ _ hg]
      split
      · simp
      · rename_i hl
        intro hc
        apply hl
        rw [Option.some.inj hc]; rfl
  · rw [remove_get_other _ _ _ _ hk]
    exact hinv key2

theorem noEmptySet_applyOps (ops : List HubOp) (sb : SubscribeHub) (hinv : NoEmptySet sb) :
    NoEmptySet (applyOps sb ops) := by
  induction ops generalizing sb with
  | nil => exact hinv
  | cons op ops ih =>
    cases op with
    | register key h => exact ih _ (noEmptySet_register sb key h hinv)
    | remove key h => exact ih _ (noEmptySet_remove sb key h hinv)
/-- C6. Starting from the hub of InitSubscribeHub, after every sequence of
Register and Remove calls: no key maps to an empty handler set; Remove(key, h)
on a key whose only handler is h leaves the key absent; Remove of an absent
key, or of a handler the key does not hold, changes nothing; and neither
Register nor Remove changes what any other key maps to. -/
theorem hub_no_empty_handler_set (ops : List HubOp) :
    NoEmptySet (applyOps InitSubscribeHub ops) ∧
    (∀ key h b, mapGet (applyOps InitSubscribeHub ops).data key = some [(h, b)] →
      mapGet ((applyOps InitSubscribeHub ops).Remove key h).data key = none) ∧
    (∀ key h, mapGet (applyOps InitSubscribeHub ops).data key = none →
      (applyOps InitSubscribeHub ops).Remove key h = applyOps InitSubscribeHub ops) ∧
    (∀ key h hs, mapGet (applyOps InitSubscribeHub ops).data key = some hs →
      mapGet hs h = none →
      (applyOps InitSubscribeHub ops).Remove key h = applyOps InitSubscribeHub ops) ∧
    (∀ key key2 h, key2 ≠ key →
      mapGet ((applyOps InitSubscribeHub ops).Register key h).data key2 =
        mapGet (applyOps InitSubscribeHub ops).data key2 ∧
      mapGet ((applyOps InitSubscribeHub ops).Remove key h).data key2 =
        mapGet (applyOps InitSubscribeHub ops).data key2) := by
  have hinv := noEmptySet_applyOps ops InitSubscribeHub noEmptySet_init
  generalize applyOps InitSubscribeHub ops = sb at hinv ⊢
  refine ⟨hinv, ?_, ?_, ?_, ?_⟩
  · intro key h b hg
    rw [remove_get_same sb key h _ hg]
    simp [mapDelete]
  · intro key h hg
    simp [SubscribeHub.Remove, hg]
  · intro key h hs hg hh
    have hne : hs ≠ [] := fun hc => hinv key (by rw [hg, hc])
    have hlen : ¬ hs.length = 0 := by
      intro hc; exact hne (List.length_eq_zero.mp hc)
    simp only [SubscribeHub.Remove, hg, mapDelete_absent hs h hh, mapSet_same_value _ _ _ hg,
      if_neg hlen]
  · intro key key2 h hk
    exact ⟨register_get_other sb key key2 h hk, remove_get_other sb key key2 h hk⟩

/-- C6, witness: in exampleHub the key k2 has one handler, and removing it
leaves k2 absent; removing a handler k1 does not hold changes nothing. -/
theorem hub_no_empty_handler_set_witness :
    mapGet (exampleHub.Remove "k2" (Handler.subscribeServer 2)).data "k2" = none ∧
      exampleHub.Remove "k1" (Handler.createCallback 9) = exampleHub ∧
      exampleHub.Remove "k3" (Handler.createCallback 9) = exampleHub :=
  let h := hub_no_empty_handler_set
    [HubOp.register "k1" (Handler.createCallback 1), HubOp.register "k2" (Handler.subscribeServer 2),
      HubOp.register "k1" (Handler.subscribeServer 3), HubOp.remove "k1" (Handler.createCallback 1)]
  ⟨h.2.1 "k2" (Handler.subscribeServer 2) true (by decide),
    h.2.2.2.1 "k1" (Handler.createCallback 9) [(Handler.subscribeServer 3, true)] (by decide)
      (by decide),
    h.2.2.1 "k3" (Handler.createCallback 9) (by decide)⟩

/-- C9, at the failing input. The intents (a-ID:b, c) and (a, b-ID:c) differ
and getSubscribeHubKey gives both the key Type:a-ID:b-ID:c; a callback
registered for (a, b-ID:c) is called when a log of (a-ID:b, c) is
published. -/
theorem getSubscribeHubKey_collision :
    getSubscribeHubKey "a-ID:b" "c" = getSubscribeHubKey "a" "b-ID:c" ∧
      ("a-ID:b", "c") ≠ ("a", "b-ID:c") ∧
      SendLogStatusToSubscriber
        (InitSubscribeHub.Register (getSubscribeHubKey "a" "b-ID:c") (Handler.createCallback 7))
        crossLog none = [Delivery.call 7 crossLog none] := by
  decide
/-! ## Create callback -/

theorem mem_mapSet_self {K V : Type} [DecidableEq K] (m : List (K × V)) (k : K) (v : V) :
    (k, v) ∈ mapSet m k v := by
  induction m with
  | nil => simp [mapSet]
  | cons p m ih =>
    obtain ⟨k1, v1⟩ := p
    by_cases h : k1 = k
    · simp [mapSet, h]
    · simp [mapSet, h, ih]

/-- A callback registered under the key of a log is called when the log is
published. -/
theorem publish_calls_registered (sb : SubscribeHub) (l : LaunchLog) (id : Nat)
    (err : Option String) :
    Delivery.call id l err ∈
      SendLogStatusToSubscriber
        (sb.Register (getSubscribeHubKey l.ItemType l.ItemID) (Handler.createCallback id)) l err := by
  unfold SendLogStatusToSubscriber
  simp only [register_get_same]
  rw [List.mem_map]
  exact ⟨(Handler.createCallback id, true), mem_mapSet_self _ _ _, rfl⟩

/-- C8, amended. When SendLogStatusToSubscriber publishes a log of the
intent with a nil error to the callback registered by a waiting createLog,
the callback is called and, whatever the status of the log (PENDING,
SUCCESS, FAILED and RETRIED alike), puts one reply carrying that status on
the reply channel, which the select of createLog returns to the caller. -/
theorem create_callback_resolves (env : Env) (w : World) (msg : CreateMessage)
    (key : String) (id : Nat) (l : LaunchLog)
    (hw : (createLog env w msg).1 = .waiting key (Handler.createCallback id))
    (hl : l.ItemType = msg.ItemType ∧ l.ItemID = msg.ItemId) :
    Delivery.call id l none ∈
      SendLogStatusToSubscriber (createLog env w msg).2.subscribeHub l none ∧
    cb l none ⟨[], []⟩ = some ⟨[replyOf l], []⟩ ∧
    (replyOf l).Data.Status = LaunchLogStatus_value l.Status ∧
    createLogSelect (createLog env w msg).2 key (Handler.createCallback id) ⟨[replyOf l], []⟩ =
      [(Except.ok (replyOf l),
        { (createLog env w msg).2 with
          subscribeHub :=
            (createLog env w msg).2.subscribeHub.Remove key (Handler.createCallback id) })] := by
  refine ⟨?_, rfl, rfl, rfl⟩
  rcases createLog_cases env w msg with ⟨_, h1, _⟩ | ⟨value, gasPrice, hch, _, hhub⟩
  · exact absurd hw (h1 _ _)
  · obtain ⟨hv, hg, hf, hfl, ht, htl, hc, hcnt, hce⟩ := hch
    have hid : id = w.nextCallback := by
      rw [createLog_checked env w msg value gasPrice hv hg hf hfl ht htl hc] at hw
      have h0 : ¬ w.DB.Count msg.ItemType msg.ItemId > 0 := by omega
      simp only [if_neg h0, hce] at hw
      split at hw
      · simp only [CreateStep.waiting.injEq, Handler.createCallback.injEq] at hw
        exact hw.2.symm
      · cases hw
    rw [hhub, ← hl.1, ← hl.2, hid]
    exact publish_calls_registered _ _ _ _

/-- C8, witness: the callback of the waiting call for exampleMsg is called
with retriedLog and answers the caller with its status. -/
theorem create_callback_resolves_witness :
    Delivery.call 0 retriedLog none ∈
      SendLogStatusToSubscriber (createLog exampleEnv emptyWorld exampleMsg).2.subscribeHub
        retriedLog none ∧
    cb retriedLog none ⟨[], []⟩ = some ⟨[replyOf retriedLog], []⟩ :=
  let h := create_callback_resolves exampleEnv emptyWorld exampleMsg "Type:T-ID:a" 0 retriedLog
    (by decide) (by decide)
  ⟨h.1, h.2.1⟩

/-- C8, counterexample. A log in status RETRIED published with a nil error
reaches the callback of the waiting call, and the callback puts a reply with
status RETRIED on the reply channel; the select of createLog returns it, so
the caller does not keep waiting. -/
theorem create_callback_resolves_on_retried :
    retriedLog.Status = "RETRIED" ∧
      SendLogStatusToSubscriber worldWithLog.subscribeHub retriedLog none =
        [Delivery.call 0 retriedLog none] ∧
      cb retriedLog none ⟨[], []⟩ = some ⟨[replyOf retriedLog], []⟩ ∧
      (replyOf retriedLog).Data.Status = LaunchLogStatus_value "RETRIED" ∧
      (createLogSelect worldWithLog "Type:T-ID:a" (Handler.createCallback 0)
        ⟨[replyOf retriedLog], []⟩).map (fun r => r.1) = [Except.ok (replyOf retriedLog)] := by
  refine ⟨by decide, by decide, by decide, by decide, by rfl⟩
/-! ## Watcher block cursor -/

theorem saveBlockNumber_facts (w : Watcher) (blockNum : Int) (storeErr : Option String) :
    (∀ v, (w.saveBlockNumber blockNum storeErr).written = some v →
      v = blockNum ∧ w.lastSavedBlockNumber < v) ∧
    w.lastSavedBlockNumber ≤ (w.saveBlockNumber blockNum storeErr).watcher.lastSavedBlockNumber ∧
    (blockNum ≤ w.lastSavedBlockNumber →
      w.saveBlockNumber blockNum storeErr = ⟨w, none, none⟩) ∧
    (storeErr ≠ none → (w.saveBlockNumber blockNum storeErr).watcher = w) := by
  unfold Watcher.saveBlockNumber
  by_cases h : blockNum ≤ w.lastSavedBlockNumber
  · simp [h]
  · have hlt : w.lastSavedBlockNumber < blockNum := by omega
    cases storeErr with
    | some e =>
      rw [if_neg h]
      exact ⟨fun v hv => by cases hv; exact ⟨rfl, hlt⟩, le_refl _, fun h2 => absurd h2 h,
        fun _ => rfl⟩
    | none =>
      rw [if_neg h]
      exact ⟨fun v hv => by cases hv; exact ⟨rfl, hlt⟩, le_of_lt hlt, fun h2 => absurd h2 h,
        fun h2 => absurd rfl h2⟩

theorem saveAll_before_ge (calls : List (Int × Option String)) (w : Watcher) :
    ∀ c ∈ saveAll w calls, w.lastSavedBlockNumber ≤ c.before.lastSavedBlockNumber ∧
      c.result = c.before.saveBlockNumber c.blockNum c.storeErr := by
  induction calls generalizing w with
  | nil => intro c hc; simp [saveAll] at hc
  | cons p rest ih =>
    obtain ⟨b, e⟩ := p
    intro c hc
    simp only [saveAll, List.mem_cons] at hc
    rcases hc with hc | hc
    · subst hc
      exact ⟨le_refl _, rfl⟩
    · have h1 := ih _ c hc
      have h2 := (saveBlockNumber_facts w b e).2.1
      exact ⟨le_trans h2 h1.1, h1.2⟩

theorem saveAll_chain (calls : List (Int × Option String)) (w : Watcher) :
    List.Chain' (fun c1 c2 : SaveCall => c2.before = c1.result.watcher) (saveAll w calls) := by
  induction calls generalizing w with
  | nil => simp [saveAll]
  | cons p rest ih =>
    obtain ⟨b, e⟩ := p
    simp only [saveAll]
    cases rest with
    | nil => simp [saveAll]
    | cons p2 rest2 =>
      obtain ⟨b2, e2⟩ := p2
      have := ih (w.saveBlockNumber b e).watcher
      simp only [saveAll] at this ⊢
      exact List.Chain'.cons rfl this

/-- C7. For every sequence of calls of saveBlockNumber, with arbitrary block
numbers and arbitrary answers of the store: each call starts from the cursor
the call before it left, and the cursor of every call is at least the initial
one; the store's IncreaseBlockNumber is invoked only with the block number of
the call and only when it is strictly greater than lastSavedBlockNumber;
lastSavedBlockNumber does not decrease in any call; a call with blockNum <=
lastSavedBlockNumber writes nothing and returns nil; and when the store write
fails lastSavedBlockNumber stays as it was. -/
theorem saveBlockNumber_cursor_monotone (w : Watcher) (calls : List (Int × Option String)) :
    List.Chain' (fun c1 c2 : SaveCall => c2.before = c1.result.watcher) (saveAll w calls) ∧
    ∀ c ∈ saveAll w calls,
      w.lastSavedBlockNumber ≤ c.before.lastSavedBlockNumber ∧
      (∀ v, c.result.written = some v →
        v = c.blockNum ∧ c.before.lastSavedBlockNumber < v) ∧
      c.before.lastSavedBlockNumber ≤ c.result.watcher.lastSavedBlockNumber ∧
      (c.blockNum ≤ c.before.lastSavedBlockNumber →
        c.result.written = none ∧ c.result.err = none ∧ c.result.watcher = c.before) ∧
      (c.storeErr ≠ none → c.result.watcher = c.before) ∧
      (c.result.err ≠ none → c.result.watcher = c.before) := by
  refine ⟨saveAll_chain calls w, ?_⟩
  intro c hc
  obtain ⟨h1, h2⟩ := saveAll_before_ge calls w c hc
  have hf := saveBlockNumber_facts c.before c.blockNum c.storeErr
  rw [h2]
  refine ⟨h1, hf.1, hf.2.1, ?_, hf.2.2.2, ?_⟩
  · intro hle
    rw [hf.2.2.1 hle]
    exact ⟨rfl, rfl, rfl⟩
  · intro herr
    unfold Watcher.saveBlockNumber at herr ⊢
    split
    · rfl
    · rename_i hgt
      simp only [if_neg hgt] at herr
      cases hs : c.storeErr with
      | some e => rfl
      | none => rw [hs] at herr; exact absurd rfl herr

/-- C7, witness: five calls from cursor 10, with block numbers 12, 11, 15
(the store failing), 15 and 9. -/
theorem saveBlockNumber_cursor_monotone_witness :
    (saveAll ⟨10⟩ [(12, none), (11, none), (15, some "db down"), (15, none), (9, none)]).map
        (fun c => (c.result.written, c.result.watcher.lastSavedBlockNumber)) =
      [(some 12, 12), (none, 12), (some 15, 12), (some 15, 15), (none, 15)] ∧
    (10 : Int) ≤ 12 ∧ ((15 : Int) = 15 ∧ (12 : Int) < 15) :=
  let h := (saveBlockNumber_cursor_monotone ⟨10⟩
    [(12, none), (11, none), (15, some "db down"), (15, none), (9, none)]).2
    ⟨⟨12⟩, 15, some "db down", ⟨⟨12⟩, some 15, some "db down"⟩⟩ (by decide)
  ⟨by decide, h.1, h.2.1 15 rfl⟩
/-! ## The retry race -/

theorem sqlNe_self (h : NullString) : sqlNe h h = false := by
  simp [sqlNe]

/-- On the named states, with a log L that is PENDING and does not hold the
hash "retried" and a store that does not fail, the steps of the goroutines
are the steps of the names. -/
theorem step_state (L : LaunchLog) (now : Int) (hL : L.Status = "PENDING")
    (hH : ¬ (L.Hash.Valid = true ∧ L.Hash.Str = "retried")) (p : Phase) (t : Tid) :
    step L now (Phase.state L now p) (t, none) = Phase.state L now (p.next t) := by
  have hT : (L.Hash.Valid && decide (L.Hash.Str = "retried")) = false := by
    cases hv : L.Hash.Valid <;> simp_all
  cases p <;> cases t <;>
    simp [step, stepConfirm, stepRetry, Phase.state, Phase.next, initRace, findByID, hL,
      retireOthers, setStatus, setUpdatedAt, insertRetryLaunchLog, sqlNe_self, hashTaken,
      Thread.commit, Thread.abort, Thread.fresh, tableStart, tableSuccess, tableRetried, hT]

theorem run_state (L : LaunchLog) (now : Int) (hL : L.Status = "PENDING")
    (hH : ¬ (L.Hash.Valid = true ∧ L.Hash.Str = "retried")) (sched : List Tid) (p : Phase) :
    run L now (Phase.state L now p) (quiet sched) =
      Phase.state L now (sched.foldl Phase.next p) := by
  induction sched generalizing p with
  | nil => rfl
  | cons t rest ih =>
    simp only [run, quiet, List.map_cons, List.foldl_cons] at ih ⊢
    rw [step_state L now hL hH p t]
    exact ih (p.next t)

theorem fairTail_finishes (p : Phase) :
    fairTail.foldl Phase.next p = .successEnd ∨ fairTail.foldl Phase.next p = .retriedEnd := by
  cases p <;> decide

/-- C1, amended. For every log L in status PENDING whose hash is not
"retried", created alone in the table, and every schedule of the two
transaction bodies (confirm: lock L, set SUCCESS; retry: lock L, insert the
retried row) in which no statement of the store fails: the row lock
serializes them, the two are never inside their transactions together;
continued fairly, both return; both orders occur; and once both have returned
exactly one outcome is there: either L is SUCCESS with no other row, the
confirm body having read L as PENDING and the retry body, second, having
read a status other than PENDING and written nothing; or L is RETRIED with
exactly one new PENDING row of hash "retried", the retry body having read L
as PENDING and the confirm body, second, having read a status other than
PENDING and written nothing. Never both outcomes, never neither. -/
theorem retry_race_exactly_one_outcome (L : LaunchLog) (now : Int)
    (hL : L.Status = "PENDING")
    (hH : ¬ (L.Hash.Valid = true ∧ L.Hash.Str = "retried")) (sched : List Tid) :
    ¬ ((run L now (initRace L) (quiet sched)).confirm.inTx = true ∧
        (run L now (initRace L) (quiet sched)).retry.inTx = true) ∧
    ((run L now (initRace L) (quiet (sched ++ fairTail))).confirm.pc = .done ∧
      (run L now (initRace L) (quiet (sched ++ fairTail))).retry.pc = .done) ∧
    successOutcome L
      (run L now (initRace L)
        (quiet (List.replicate 5 Tid.confirm ++ List.replicate 2 Tid.retry))).db.rows ∧
    retriedOutcome L now
      (run L now (initRace L)
        (quiet (List.replicate 5 Tid.retry ++ List.replicate 2 Tid.confirm))).db.rows ∧
    ((run L now (initRace L) (quiet sched)).confirm.pc = .done →
      (run L now (initRace L) (quiet sched)).retry.pc = .done →
      ((successOutcome L (run L now (initRace L) (quiet sched)).db.rows ∧
          (run L now (initRace L) (quiet sched)).confirm.reloadedLog = some L ∧
          (∃ r, (run L now (initRace L) (quiet sched)).retry.reloadedLog = some r ∧
            r.Status ≠ "PENDING") ∧
          (run L now (initRace L) (quiet sched)).retry.writes = 0) ∨
        (retriedOutcome L now (run L now (initRace L) (quiet sched)).db.rows ∧
          (run L now (initRace L) (quiet sched)).retry.reloadedLog = some L ∧
          (∃ r, (run L now (initRace L) (quiet sched)).confirm.reloadedLog = some r ∧
            r.Status ≠ "PENDING") ∧
          (run L now (initRace L) (quiet sched)).confirm.writes = 0)) ∧
      ¬ (successOutcome L (run L now (initRace L) (quiet sched)).db.rows ∧
        retriedOutcome L now (run L now (initRace L) (quiet sched)).db.rows) ∧
      (run L now (initRace L) (quiet sched)).confirm.err = none ∧
      (run L now (initRace L) (quiet sched)).retry.err = none) := by
  have hinit : initRace L = Phase.state L now .init := rfl
  rw [hinit]
  refine ⟨?_, ?_, ?_, ?_, ?_⟩
  · rw [run_state L now hL hH]
    generalize sched.foldl Phase.next .init = p
    cases p <;> simp [Phase.state, initRace, Thread.inTx, Thread.fresh]
  · rw [run_state L now hL hH, List.foldl_append]
    rcases fairTail_finishes (sched.foldl Phase.next .init) with h | h <;>
      rw [h] <;> exact ⟨rfl, rfl⟩
  · rw [run_state L now hL hH]
    rfl
  · rw [run_state L now hL hH]
    rfl
  · rw [run_state L now hL hH]
    generalize sched.foldl Phase.next .init = p
    cases p <;>
      simp [Phase.state, initRace, successOutcome, retriedOutcome, Thread.fresh, tableSuccess,
        tableRetried, tableStart]

/-- C1, witness: the log of the test under a schedule that interleaves the
two goroutines. -/
theorem retry_race_exactly_one_outcome_witness :
    successOutcome testLog
      (run testLog 7 (initRace testLog)
        (quiet ([Tid.confirm, Tid.retry, Tid.confirm, Tid.retry] ++ fairTail))).db.rows ∧
    (run testLog 7 (initRace testLog)
      (quiet ([Tid.confirm, Tid.retry, Tid.confirm, Tid.retry] ++ fairTail))).retry.writes = 0 :=
  let h := retry_race_exactly_one_outcome testLog 7 (by decide) (by decide)
    ([Tid.confirm, Tid.retry, Tid.confirm, Tid.retry] ++ fairTail)
  let o := (h.2.2.2.2 (by decide) (by decide)).1
  ⟨o.elim (fun a => a.1) (fun b => absurd b.2.2.2 (by decide)),
    o.elim (fun a => a.2.2.2) (fun b => absurd b.2.2.2 (by decide))⟩

/-- C1, counterexample. First, clashLog is PENDING and holds the hash
"retried": when the retry body runs first and the confirm body second, with
no failure of the store, the unique index on hash refuses the retried row,
the retry body returns the error and is rolled back, and the confirm body,
second, reads L as PENDING and writes. Second, the log of the test: when
the SELECT FOR UPDATE of both bodies fails, both return their error and the
table is left with L in PENDING, neither outcome. -/
theorem retry_race_second_body_writes :
    (clashLog.Status = "PENDING" ∧
      (run clashLog 7 (initRace clashLog)
        (quiet (List.replicate 5 Tid.retry ++ List.replicate 5 Tid.confirm))).retry =
        ⟨.done, some clashLog, 1, none, some "duplicate key value violates unique constraint"⟩ ∧
      (run clashLog 7 (initRace clashLog)
        (quiet (List.replicate 5 Tid.retry ++ List.replicate 5 Tid.confirm))).confirm =
        ⟨.done, some clashLog, 2, none, none⟩ ∧
      (run clashLog 7 (initRace clashLog) (quiet (List.replicate 5 Tid.retry))).db.rows =
        [clashLog]) ∧
    (testLog.Status = "PENDING" ∧
      (run testLog 7 (initRace testLog)
        [(Tid.confirm, some "lock timeout"), (Tid.retry, some "lock timeout")]).confirm.pc = .done ∧
      (run testLog 7 (initRace testLog)
        [(Tid.confirm, some "lock timeout"), (Tid.retry, some "lock timeout")]).retry.pc = .done ∧
      (run testLog 7 (initRace testLog)
        [(Tid.confirm, some "lock timeout"), (Tid.retry, some "lock timeout")]).db.rows =
        [testLog] ∧
      ¬ successOutcome testLog
        (run testLog 7 (initRace testLog)
          [(Tid.confirm, some "lock timeout"), (Tid.retry, some "lock timeout")]).db.rows ∧
      ¬ retriedOutcome testLog 7
        (run testLog 7 (initRace testLog)
          [(Tid.confirm, some "lock timeout"), (Tid.retry, some "lock timeout")]).db.rows) := by
  decide

end Launcher
